import Mathlib

/-!
Verification of the server-fleet coordination core of the `imposter` repository:
the lease-manager (leader election over a shared key-value store, from
`lib/reconciler.ts`) and the reconciliation sweep that cleans up orphaned
external "meeting" resources and abandoned game rooms (`lib/reconciler.ts`,
using the store facade from `lib/redis.ts`, the room enumeration from
`events.ts`, the data model from `types/index.ts`, the configuration from
`config.ts`, and the meeting-creation path from `routers/audio.ts`).

The shared Redis store is modelled as explicit state: each family of keys
(`room:*`, `meeting:*`, `chat:*`, the `room_codes` hash) is an association
list with string keys.  Key TTLs on rooms, meetings and chats (24 h) play no
role in the verified properties and are elided; the TTL of the leadership key
is modelled where it matters (as the stored expiry value in the sequential
lease model, and as a nondeterministic expiry event in the fleet model).
External effects (the Cloudflare RealtimeKit DELETE call) are modelled by an
oracle giving the outcome of each HTTP request, plus logs of the attempted
deletions and of the actual network requests.  Store failures (a rejected
read of a room record) are modelled by an oracle naming the room ids whose
read rejects; exceptions are modelled by explicit abort flags so that the
partially-mutated state at the moment of the throw is preserved.
-/

namespace Imposter

/-! ## Association-list primitives for the key-value store -/

/-- Lookup of a string key in an association list (`redis.get`). -/
def lookupKV {α : Type} (k : String) : List (String × α) → Option α
  | [] => none
  | p :: t => if p.1 = k then some p.2 else lookupKV k t

/-- Removal of every binding of a string key (`redis.del`). -/
def eraseKV {α : Type} (k : String) (l : List (String × α)) : List (String × α) :=
  l.filter (fun p => !(p.1 == k))

/-! ## Data model (`types/index.ts`) -/

/-- Room state: `'lobby' | 'playing' | 'finished'`. -/
inductive RoomState where
  | lobby
  | playing
  | finished
deriving DecidableEq

/-- A player entry of a room record. -/
structure Player where
  id : String
  name : String
  isHost : Bool
  isConnected : Bool
  joinedAt : Nat
deriving DecidableEq

/-- Game type: `'word' | 'question'`. -/
inductive GameType where
  | word
  | question
deriving DecidableEq

/-- Game settings of a room. -/
structure GameSettings where
  gameType : GameType
  categories : List String
  imposterCount : Nat
  showCategoryToImposter : Bool
  showHintToImposter : Bool
  discussionTimeSeconds : Nat
  answerTimeSeconds : Nat
deriving DecidableEq

/-- Game phase of the in-progress game state. -/
inductive GamePhase where
  | assigning
  | confirming
  | answering
  | discussion
  | reveal
deriving DecidableEq

/-- Player role in a game. -/
inductive PlayerRole where
  | player
  | imposter
deriving DecidableEq

/-- In-progress game state (all payload fields optional, as in the schema). -/
structure GameState where
  phase : GamePhase
  word : Option String
  category : Option String
  hint : Option String
  playerRoles : List (String × PlayerRole)
  confirmedPlayers : List String
  realQuestion : Option String
  imposterQuestion : Option String
  answers : List (String × String)
  phaseStartedAt : Option Nat
  phaseEndsAt : Option Nat
deriving DecidableEq

/-- The denormalized room record. -/
structure RoomData where
  id : String
  code : String
  hostId : String
  serverId : String
  players : List Player
  settings : GameSettings
  state : RoomState
  gameState : Option GameState
  createdAt : Nat
deriving DecidableEq

/-- A chat message. -/
structure ChatMessage where
  id : String
  roomId : String
  playerId : String
  playerName : String
  content : String
  timestamp : Nat
deriving DecidableEq

/-- Default game settings from `types/index.ts`. -/
def defaultGameSettings : GameSettings :=
  { gameType := GameType.word
    categories := ["Love & Relationships"]
    imposterCount := 1
    showCategoryToImposter := true
    showHintToImposter := false
    discussionTimeSeconds := 180
    answerTimeSeconds := 60 }

/-! ## Configuration (`config.ts`) -/

/-- Environment configuration.  The three Cloudflare fields are optional
environment variables. -/
structure Config where
  port : Nat
  redisUrl : String
  serverId : String
  cloudflareAccountId : Option String
  cloudflareApiToken : Option String
  cloudflareRtkAppId : Option String
deriving DecidableEq

/-- JavaScript truthiness of an optional string (`undefined` and the empty
string are falsy). -/
def truthy : Option String → Bool
  | none => false
  | some s => !(s == "")

/-- Function `config.isRealtimeKitConfigured`:
`!!(CLOUDFLARE_ACCOUNT_ID && CLOUDFLARE_API_TOKEN && CLOUDFLARE_RTK_APP_ID)`. -/
def Config.isRealtimeKitConfigured (c : Config) : Bool :=
  truthy c.cloudflareAccountId && truthy c.cloudflareApiToken && truthy c.cloudflareRtkAppId

/-! ## The shared store (`lib/redis.ts`, `events.ts`) -/

/-- The shared Redis state seen by the reconciler: the `room:{id}` records,
the `room_codes` hash (join code → room id), the `chat:{roomId}` histories
and the `meeting:{roomId}` mappings. -/
structure Store where
  rooms : List (String × RoomData)
  roomCodes : List (String × String)
  chats : List (String × List ChatMessage)
  meetings : List (String × String)
deriving DecidableEq

/-- Function `getRoomById` from `lib/redis.ts`. -/
def getRoomById (id : String) (s : Store) : Option RoomData :=
  lookupKV id s.rooms

/-- Function `deleteRoom` from `lib/redis.ts`: deletes `room:{room.id}`, the join-code
index entry and `chat:{room.id}`. -/
def deleteRoom (room : RoomData) (s : Store) : Store :=
  { s with
    rooms := eraseKV room.id s.rooms
    roomCodes := eraseKV room.code s.roomCodes
    chats := eraseKV room.id s.chats }

/-- Function `getMeetingId` from `lib/redis.ts`. -/
def getMeetingId (roomId : String) (s : Store) : Option String :=
  lookupKV roomId s.meetings

/-- Function `deleteMeetingId` from `lib/redis.ts`. -/
def deleteMeetingId (roomId : String) (s : Store) : Store :=
  { s with meetings := eraseKV roomId s.meetings }

/-- Function `saveMeetingIdIfNotExists` from `lib/redis.ts`: `SETNX meeting:{roomId}`,
returning `true` iff the key was absent and was set (the 24 h TTL added after
a successful set is elided). -/
def saveMeetingIdIfNotExists (roomId meetingId : String) (s : Store) : Bool × Store :=
  match lookupKV roomId s.meetings with
  | some _ => (false, s)
  | none => (true, { s with meetings := (roomId, meetingId) :: s.meetings })

/-- Function `getAllMeetingRoomIds` from `lib/reconciler.ts`: cursor scan of
`meeting:*`, stripping the key to the room id. -/
def getAllMeetingRoomIds (s : Store) : List String :=
  s.meetings.map Prod.fst

/-- Function `getAllRoomIds` from `events.ts`: cursor scan of `room:*`, stripping the
key to the room id. -/
def getAllRoomIds (s : Store) : List String :=
  s.rooms.map Prod.fst

/-- Well-formedness of the store as Redis guarantees it: keys are unique, and
each room record is stored under its own id (as `saveRoom` writes it). -/
abbrev StoreWF (s : Store) : Prop :=
  (s.rooms.map Prod.fst).Nodup
  ∧ (s.meetings.map Prod.fst).Nodup
  ∧ ∀ p ∈ s.rooms, p.2.id = p.1

/-! ## External resource client and fault oracles (`lib/reconciler.ts`) -/

/-- Outcome of one Cloudflare RealtimeKit DELETE request: a 2xx response, a
non-2xx response, or a thrown network error. -/
inductive FetchOutcome where
  | ok
  | notOk
  | threw
deriving DecidableEq

/-- Function `deleteCloudfareMeeting` from `lib/reconciler.ts`.  If RealtimeKit is not
configured it returns `false` without a network request; otherwise it issues
the DELETE, returns `response.ok`, and catches a thrown fetch error as
`false`.  The second component records the network requests performed. -/
def deleteCloudfareMeeting (cfg : Config) (ext : String → FetchOutcome)
    (meetingId : String) : Bool × List String :=
  if cfg.isRealtimeKitConfigured = false then (false, [])
  else
    match ext meetingId with
    | FetchOutcome.ok => (true, [meetingId])
    | FetchOutcome.notOk => (false, [meetingId])
    | FetchOutcome.threw => (false, [meetingId])

/-- Log of one sweep: meeting ids for which `deleteCloudfareMeeting` was
invoked, network DELETE requests actually issued, and whether a store error
was thrown (and caught by the enclosing sweep-level handler). -/
structure SweepLog where
  attempts : List String
  requests : List String
  aborted : Bool
deriving DecidableEq

/-- The empty sweep log. -/
def SweepLog.empty : SweepLog :=
  ⟨[], [], false⟩

/-- Concatenation of sweep logs. -/
def SweepLog.append (a b : SweepLog) : SweepLog :=
  ⟨a.attempts ++ b.attempts, a.requests ++ b.requests, a.aborted || b.aborted⟩

/-- The fault oracle describing a store with no failures. -/
def noBad : String → Bool :=
  fun _ => false

/-- The condition of `runReconciliation` for deleting a meeting mapping:
`!room || room.state === 'lobby'`. -/
def meetingStale (s : Store) (roomId : String) : Bool :=
  match getRoomById roomId s with
  | none => true
  | some room => room.state == RoomState.lobby

/-- The condition of `cleanupAbandonedRooms` for deleting a room: the
designated host is not connected, or no player is connected. -/
def isAbandoned (room : RoomData) : Bool :=
  let connectedPlayers := room.players.filter (fun p => p.isConnected)
  let host := room.players.find? (fun p => p.id == room.hostId)
  let hostConnected := match host with | some p => p.isConnected | none => false
  !hostConnected || connectedPlayers.length == 0

/-- Predicate `isAbandoned` read through the store: `false` when the room is absent
(the sweep skips absent rooms). -/
def isAbandonedAt (s : Store) (roomId : String) : Bool :=
  match getRoomById roomId s with
  | some room => isAbandoned room
  | none => false

/-- The meeting-cleanup loop of `runReconciliation`, iterating over the
scanned meeting room ids.  `bad` names the room ids whose record read
rejects; a rejection aborts the loop (there is no per-item handler), leaving
prior deletions in place. -/
def reconcileMeetings (cfg : Config) (ext : String → FetchOutcome) (bad : String → Bool) :
    List String → Store → Store × SweepLog
  | [], s => (s, SweepLog.empty)
  | roomId :: rest, s =>
    if bad roomId then (s, ⟨[], [], true⟩)
    else
      if meetingStale s roomId then
        match getMeetingId roomId s with
        | some meetingId =>
          let del := deleteCloudfareMeeting cfg ext meetingId
          let s1 := deleteMeetingId roomId s
          let out := reconcileMeetings cfg ext bad rest s1
          (out.1, ⟨meetingId :: out.2.attempts, del.2 ++ out.2.requests, out.2.aborted⟩)
        | none => reconcileMeetings cfg ext bad rest s
      else reconcileMeetings cfg ext bad rest s

/-- The loop body of `cleanupAbandonedRooms`, iterating over the scanned room
ids.  A rejected room read aborts the loop (the handler wraps the whole
loop); external-deletion outcomes never abort. -/
def cleanupRooms (cfg : Config) (ext : String → FetchOutcome) (bad : String → Bool) :
    List String → Store → Store × SweepLog
  | [], s => (s, SweepLog.empty)
  | roomId :: rest, s =>
    if bad roomId then (s, ⟨[], [], true⟩)
    else
      match getRoomById roomId s with
      | none => cleanupRooms cfg ext bad rest s
      | some room =>
        if isAbandoned room then
          let cleaned : Store × SweepLog :=
            match getMeetingId roomId s with
            | some meetingId =>
              let del := deleteCloudfareMeeting cfg ext meetingId
              (deleteMeetingId roomId s, ⟨[meetingId], del.2, false⟩)
            | none => (s, SweepLog.empty)
          let s2 := deleteRoom room cleaned.1
          let out := cleanupRooms cfg ext bad rest s2
          (out.1, SweepLog.append cleaned.2 out.2)
        else cleanupRooms cfg ext bad rest s

/-- Function `cleanupAbandonedRooms` from `lib/reconciler.ts`: enumerate all room ids
and run the cleanup loop; its own try/catch absorbs a thrown store error. -/
def cleanupAbandonedRooms (cfg : Config) (ext : String → FetchOutcome)
    (bad : String → Bool) (s : Store) : Store × SweepLog :=
  cleanupRooms cfg ext bad (getAllRoomIds s) s

/-- Function `runReconciliation` from `lib/reconciler.ts`: a no-op unless this process
is leader; otherwise the meeting-cleanup loop followed by
`cleanupAbandonedRooms`, the whole body wrapped in one try/catch.  A store
error thrown by the meeting loop is caught at this level, skipping
`cleanupAbandonedRooms`; the function itself never rethrows. -/
def runReconciliation (cfg : Config) (ext : String → FetchOutcome)
    (bad : String → Bool) (isLeader : Bool) (s : Store) : Store × SweepLog :=
  if isLeader = false then (s, SweepLog.empty)
  else
    let phase1 := reconcileMeetings cfg ext bad (getAllMeetingRoomIds s) s
    if phase1.2.aborted then phase1
    else
      let phase2 := cleanupAbandonedRooms cfg ext bad phase1.1
      (phase2.1, SweepLog.append phase1.2 phase2.2)

/-! ## Lease manager, sequential model (`lib/reconciler.ts`)

The leadership key `reconciler:leader` is modelled as an optional pair of the
holder identity and the remaining TTL in seconds.  Each operation is the
sequential store-transformer semantics of the corresponding function. -/

/-- Constant `LEADER_TTL_SECONDS` from `lib/reconciler.ts`. -/
def LEADER_TTL_SECONDS : Nat := 3

/-- The shared leadership record: holder identity and TTL, when present. -/
structure LeaseStore where
  leader : Option (String × Nat)
deriving DecidableEq

/-- The holder identity currently stored, if any (`redis.get(LEADER_KEY)`),
ignoring the TTL. -/
def leaseHolder (s : LeaseStore) : Option String :=
  s.leader.map Prod.fst

/-- Process-local reconciler state: the `isLeader` flag and whether the
reconciliation interval is scheduled. -/
structure Local where
  isLeader : Bool
  reconciliationActive : Bool
deriving DecidableEq

/-- Function `getReconcilerStatus` from `lib/reconciler.ts`. -/
def getReconcilerStatus (serverId : String) (l : Local) : String × Bool :=
  (serverId, l.isLeader)

/-- Function `tryAcquireLeadership`: `SET LEADER_KEY sid EX 3 NX`, succeeding iff the
key is absent. -/
def tryAcquireLeadership (sid : String) (s : LeaseStore) : Bool × LeaseStore :=
  match s.leader with
  | none => (true, ⟨some (sid, LEADER_TTL_SECONDS)⟩)
  | some _ => (false, s)

/-- Function `renewLeadership`: read the current holder; if it is not this process,
return `false` without writing; otherwise `EXPIRE` the key back to the full
TTL and return `true`. -/
def renewLeadership (sid : String) (s : LeaseStore) : Bool × LeaseStore :=
  if leaseHolder s = some sid then (true, ⟨some (sid, LEADER_TTL_SECONDS)⟩)
  else (false, s)

/-- Function `stepDown`: a no-op unless this process is leader; otherwise clear the
local flag, delete the shared record only if it still names this process,
and stop the reconciliation schedule. -/
def stepDown (sid : String) (x : Local × LeaseStore) : Local × LeaseStore :=
  if x.1.isLeader = false then x
  else
    (⟨false, false⟩, if leaseHolder x.2 = some sid then ⟨none⟩ else x.2)

/-! ## Lease manager with store failures

The same operations with the possibility that a store command rejects
(`down = true`: the store is unavailable).  Exceptions are explicit: a `none`
result means the promise rejected.  None of `tryAcquireLeadership`,
`renewLeadership` or `leadershipHeartbeat` contains a try/catch in the
source, so a rejection propagates; the state reached at the throw is
returned alongside a `threw` flag. -/

/-- Result of the heartbeat task: local state, store state, and whether an
exception escaped the task. -/
structure HBOut where
  loc : Local
  store : LeaseStore
  threw : Bool
deriving DecidableEq

/-- Function `tryAcquireLeadership` when the store may be unavailable: the `SET`
command rejects if the store is down. -/
def tryAcquireLeadershipE (down : Bool) (sid : String) (s : LeaseStore) :
    Option Bool × LeaseStore :=
  if down then (none, s)
  else
    let r := tryAcquireLeadership sid s
    (some r.1, r.2)

/-- Function `renewLeadership` when the store may be unavailable: the initial `GET`
rejects if the store is down. -/
def renewLeadershipE (down : Bool) (sid : String) (s : LeaseStore) :
    Option Bool × LeaseStore :=
  if down then (none, s)
  else
    let r := renewLeadership sid s
    (some r.1, r.2)

/-- Function `stepDown` when the store may be unavailable.  The local flag is cleared
before the `GET`, so on a rejection the flag is already `false` but the
reconciliation interval has not been cleared yet. -/
def stepDownE (down : Bool) (sid : String) (l : Local) (s : LeaseStore) : HBOut :=
  if l.isLeader = false then ⟨l, s, false⟩
  else if down then ⟨⟨false, l.reconciliationActive⟩, s, true⟩
  else
    let r := stepDown sid (l, s)
    ⟨r.1, r.2, false⟩

/-- Function `leadershipHeartbeat` from `lib/reconciler.ts`: renew when leader
(stepping down on a lost lease), otherwise try to acquire (becoming leader
and scheduling reconciliation on success).  There is no try/catch, so a
store rejection escapes the task with the local state unchanged. -/
def leadershipHeartbeatE (down : Bool) (sid : String) (l : Local) (s : LeaseStore) : HBOut :=
  if l.isLeader then
    match renewLeadershipE down sid s with
    | (none, s1) => ⟨l, s1, true⟩
    | (some true, s1) => ⟨l, s1, false⟩
    | (some false, s1) => stepDownE down sid l s1
  else
    match tryAcquireLeadershipE down sid s with
    | (none, s1) => ⟨l, s1, true⟩
    | (some true, s1) => ⟨⟨true, true⟩, s1, false⟩
    | (some false, s1) => ⟨l, s1, false⟩

/-! ## Lease manager, fleet model

The interleaved semantics of a fleet of processes (indexed by `Nat`) running
`leadershipHeartbeat` against one linearizable store.  Each transition is the
linearization point of one store command together with the purely local
continuation that runs before the next command is issued (an `await`
boundary); the leadership key's value is the holder index.  TTL expiry of
the key is untimed: when enabled (`ex = true`) the key may disappear at any
moment, over-approximating every real expiry schedule.  Each process runs at
most one heartbeat invocation at a time. -/

/-- Program counter of one process: idle between heartbeats, or awaiting one
of the five store commands of the heartbeat (`GET` for renew, `EXPIRE`,
`GET` inside `stepDown`, `DEL`, `SET NX`). -/
inductive PC where
  | idle
  | wRenew
  | wExpire
  | wSdGet
  | wDel
  | wSetnx
deriving DecidableEq

/-- One process: its local `isLeader` flag and program counter. -/
structure Proc where
  isLeader : Bool
  pc : PC
deriving DecidableEq

/-- Global fleet state: the leadership key and every process. -/
structure Fleet where
  key : Option Nat
  procs : Nat → Proc

/-- Replace the state of process `i`. -/
def setProc (g : Fleet) (i : Nat) (p : Proc) : Fleet :=
  ⟨g.key, fun j => if j = i then p else g.procs j⟩

/-- Replace the leadership key. -/
def setKey (g : Fleet) (k : Option Nat) : Fleet :=
  ⟨k, g.procs⟩

/-- Initial fleet: key absent, every process a follower at rest. -/
def initFleet : Fleet :=
  ⟨none, fun _ => ⟨false, PC.idle⟩⟩

/-- One interleaved step of the fleet.  `ex` enables TTL expiry of the
leadership key. -/
inductive HStep (ex : Bool) : Fleet → Fleet → Prop where
  | hbLeader (g : Fleet) (i : Nat) :
      g.procs i = ⟨true, PC.idle⟩ →
      HStep ex g (setProc g i ⟨true, PC.wRenew⟩)
  | hbFollower (g : Fleet) (i : Nat) :
      g.procs i = ⟨false, PC.idle⟩ →
      HStep ex g (setProc g i ⟨false, PC.wSetnx⟩)
  | setnxOk (g : Fleet) (i : Nat) :
      g.procs i = ⟨false, PC.wSetnx⟩ → g.key = none →
      HStep ex g (setProc (setKey g (some i)) i ⟨true, PC.idle⟩)
  | setnxFail (g : Fleet) (i j : Nat) :
      g.procs i = ⟨false, PC.wSetnx⟩ → g.key = some j →
      HStep ex g (setProc g i ⟨false, PC.idle⟩)
  | renewOk (g : Fleet) (i : Nat) :
      g.procs i = ⟨true, PC.wRenew⟩ → g.key = some i →
      HStep ex g (setProc g i ⟨true, PC.wExpire⟩)
  | renewFail (g : Fleet) (i : Nat) :
      g.procs i = ⟨true, PC.wRenew⟩ → g.key ≠ some i →
      HStep ex g (setProc g i ⟨false, PC.wSdGet⟩)
  | expireOk (g : Fleet) (i : Nat) :
      g.procs i = ⟨true, PC.wExpire⟩ →
      HStep ex g (setProc g i ⟨true, PC.idle⟩)
  | sdOwn (g : Fleet) (i : Nat) :
      g.procs i = ⟨false, PC.wSdGet⟩ → g.key = some i →
      HStep ex g (setProc g i ⟨false, PC.wDel⟩)
  | sdOther (g : Fleet) (i : Nat) :
      g.procs i = ⟨false, PC.wSdGet⟩ → g.key ≠ some i →
      HStep ex g (setProc g i ⟨false, PC.idle⟩)
  | delOk (g : Fleet) (i : Nat) :
      g.procs i = ⟨false, PC.wDel⟩ →
      HStep ex g (setProc (setKey g none) i ⟨false, PC.idle⟩)
  | ttlExpire (g : Fleet) (j : Nat) :
      ex = true → g.key = some j →
      HStep ex g (setKey g none)

/-- Reachability of a fleet state from the initial state. -/
def FleetReach (ex : Bool) (g : Fleet) : Prop :=
  Relation.ReflTransGen (HStep ex) initFleet g

/-- The mutual-exclusion property: at most one process reports
`isLeader = true` through `getReconcilerStatus`. -/
def atMostOneLeader (g : Fleet) : Prop :=
  ∀ i j : Nat, (g.procs i).isLeader = true → (g.procs j).isLeader = true → i = j

/-- Inductive invariant of the no-expiry fleet: a set flag means the key
names that process, and a process about to `DEL` inside `stepDown` has just
observed its own identity in the key (and has already cleared its flag). -/
def LeaderInv (g : Fleet) : Prop :=
  (∀ i : Nat, (g.procs i).isLeader = true → g.key = some i)
  ∧ (∀ i : Nat, (g.procs i).pc = PC.wDel → g.key = some i ∧ (g.procs i).isLeader = false)

/-! ## `joinCall` meeting resolution (`routers/audio.ts`)

The fragment of `audio.joinCall` that resolves the meeting for a room:
reuse the stored meeting, otherwise record the freshly created external
meeting `newId` atomically, adopting a concurrently recorded one if the
atomic set reports the key already present.  `none` models the
`Failed to get or create meeting` throw. -/

/-- The meeting-resolution step of `joinCall`, given the id of the external
meeting created for this request. -/
def joinCallMeeting (roomId newId : String) (s : Store) : Option (String × Store) :=
  match getMeetingId roomId s with
  | some meetingId => some (meetingId, s)
  | none =>
    let saved := saveMeetingIdIfNotExists roomId newId s
    if saved.1 then some (newId, saved.2)
    else
      match getMeetingId roomId saved.2 with
      | some meetingId => some (meetingId, saved.2)
      | none => none

/-! ## Concrete sample inputs -/

/-- A configuration with all three Cloudflare variables set. -/
def sampleCfg : Config :=
  ⟨3001, "redis://localhost:6379", "srv1", some "acct", some "tok", some "app"⟩

/-- A configuration with the Cloudflare variables unset. -/
def sampleCfgOff : Config :=
  ⟨3001, "redis://localhost:6379", "srv1", none, none, none⟩

/-- External API behaviour: every DELETE succeeds. -/
def extAllOk : String → FetchOutcome :=
  fun _ => FetchOutcome.ok

/-- External API behaviour: every DELETE throws a network error. -/
def extAllThrew : String → FetchOutcome :=
  fun _ => FetchOutcome.threw

/-- Store-fault oracle: reading the record of `room1` rejects. -/
def badRoom1 : String → Bool :=
  fun r => r == "room1"

/-- A disconnected host player. -/
def playerHostDown : Player :=
  ⟨"h1", "Host", true, false, 0⟩

/-- A connected non-host player. -/
def playerGuestUp : Player :=
  ⟨"g1", "Guest", false, true, 1⟩

/-- A room whose host is disconnected while another player is connected. -/
def room3 : RoomData :=
  ⟨"room3", "300000", "h1", "srv1", [playerHostDown, playerGuestUp],
    defaultGameSettings, RoomState.playing, none, 0⟩

/-- A chat message of `room3`. -/
def chat3 : ChatMessage :=
  ⟨"c1", "room3", "g1", "Guest", "hi", 5⟩

/-- A store with a stale meeting mapping (`room1` does not exist) and an
abandoned room (`room3`, host disconnected) that has a chat history and a
meeting. -/
def sampleStore : Store :=
  ⟨[("room3", room3)], [("300000", "room3")], [("room3", [chat3])],
    [("room1", "meetA"), ("room3", "meetC")]⟩

/-- The empty store. -/
def emptyStore : Store :=
  ⟨[], [], [], []⟩

/-- A store with two stale meeting mappings and no rooms. -/
def c5Store : Store :=
  ⟨[], [], [], [("room1", "meetA"), ("room2", "meetB")]⟩

/-- Fleet state: process 0 has issued its `SET NX`. -/
def fleetA1 : Fleet :=
  setProc initFleet 0 ⟨false, PC.wSetnx⟩

/-- Fleet state: process 0 acquired the lease and is leader. -/
def fleetA2 : Fleet :=
  setProc (setKey fleetA1 (some 0)) 0 ⟨true, PC.idle⟩

/-- Fleet state: the leadership key expired while process 0 still holds its
local flag. -/
def fleetB3 : Fleet :=
  setKey fleetA2 none

/-- Fleet state: process 1 has issued its `SET NX` against the expired key. -/
def fleetB4 : Fleet :=
  setProc fleetB3 1 ⟨false, PC.wSetnx⟩

/-- Fleet state: process 1 acquired the lease while process 0 still has
`isLeader = true` — two simultaneous leaders. -/
def fleetB5 : Fleet :=
  setProc (setKey fleetB4 (some 1)) 1 ⟨true, PC.idle⟩

/-! ## Lemmas about the association-list primitives -/

theorem lookupKV_eq_none_iff {α : Type} (k : String) (l : List (String × α)) :
    lookupKV k l = none ↔ k ∉ l.map Prod.fst := by
  induction l with
  | nil => simp [lookupKV]
  | cons p t ih =>
    rw [lookupKV, List.map_cons, List.mem_cons]
    by_cases h : p.1 = k
    · rw [if_pos h]
      simp [← h]
    · rw [if_neg h, ih]
      have hne : ¬k = p.1 := fun hk => h hk.symm
      simp [hne]

theorem lookupKV_mem {α : Type} {k : String} {v : α} {l : List (String × α)}
    (h : lookupKV k l = some v) : (k, v) ∈ l := by
  induction l with
  | nil => simp [lookupKV] at h
  | cons p t ih =>
    by_cases hp : p.1 = k
    · rw [lookupKV, if_pos hp] at h
      obtain ⟨a, b⟩ := p
      have hb := Option.some.inj h
      subst hb
      cases hp
      exact List.mem_cons_self _ _
    · rw [lookupKV, if_neg hp] at h
      exact List.mem_cons_of_mem _ (ih h)

theorem lookupKV_of_mem_nodup {α : Type} {l : List (String × α)}
    (hnd : (l.map Prod.fst).Nodup) {k : String} {v : α} (hm : (k, v) ∈ l) :
    lookupKV k l = some v := by
  induction l with
  | nil => simp at hm
  | cons p t ih =>
    rcases List.mem_cons.mp hm with h | h
    · rw [← h, lookupKV, if_pos rfl]
    · have hk : p.1 ≠ k := by
        intro hpk
        have : k ∈ t.map Prod.fst := List.mem_map.mpr ⟨(k, v), h, rfl⟩
        rw [List.map_cons] at hnd
        exact (List.nodup_cons.mp hnd).1 (hpk ▸ this)
      rw [lookupKV, if_neg hk]
      exact ih (List.nodup_cons.mp (List.map_cons _ _ _ ▸ hnd)).2 h

theorem lookupKV_filter_some {α : Type} (p : String × α → Bool) {k : String} {v : α}
    {l : List (String × α)} (h : lookupKV k l = some v) (hp : p (k, v) = true) :
    lookupKV k (l.filter p) = some v := by
  induction l with
  | nil => simp [lookupKV] at h
  | cons q t ih =>
    by_cases hq : q.1 = k
    · rw [lookupKV, if_pos hq] at h
      have hqv : q = (k, v) := by
        obtain ⟨a, b⟩ := q
        cases h
        cases hq
        rfl
      rw [List.filter_cons, hqv]
      simp only [hp, if_pos]
      rw [lookupKV, if_pos rfl]
    · rw [lookupKV, if_neg hq] at h
      rw [List.filter_cons]
      by_cases hpq : p q = true
      · simp only [hpq, if_pos]
        rw [lookupKV, if_neg hq]
        exact ih h
      · simp only [hpq, if_neg, Bool.false_eq_true, reduceIte]
        exact ih h

theorem lookupKV_filter_none {α : Type} (p : String × α → Bool) {k : String}
    {l : List (String × α)} (h : ∀ v, (k, v) ∈ l → p (k, v) = false) :
    lookupKV k (l.filter p) = none := by
  induction l with
  | nil => simp [lookupKV]
  | cons q t ih =>
    have iht : lookupKV k (t.filter p) = none :=
      ih (fun v hv => h v (List.mem_cons_of_mem _ hv))
    rw [List.filter_cons]
    by_cases hpq : p q = true
    · simp only [hpq, if_pos]
      rw [lookupKV]
      by_cases hq : q.1 = k
      · exfalso
        have hqm : (k, q.2) ∈ q :: t := by
          obtain ⟨a, b⟩ := q
          cases hq
          exact List.mem_cons_self _ _
        have := h q.2 hqm
        obtain ⟨a, b⟩ := q
        cases hq
        rw [this] at hpq
        exact Bool.false_ne_true hpq
      · rw [if_neg hq]
        exact iht
    · simp only [hpq, if_neg, Bool.false_eq_true, reduceIte]
      exact iht

theorem lookupKV_eraseKV_ne {α : Type} {k r : String} (l : List (String × α))
    (h : k ≠ r) : lookupKV k (eraseKV r l) = lookupKV k l := by
  induction l with
  | nil => rfl
  | cons q t ih =>
    rw [eraseKV, List.filter_cons]
    by_cases hq : q.1 = r
    · have : (q.1 == r) = true := beq_iff_eq.mpr hq
      simp only [this, Bool.not_true, Bool.false_eq_true, reduceIte]
      rw [lookupKV, if_neg (by rw [hq]; exact fun hk => h hk.symm)]
      exact ih
    · have : (q.1 == r) = false := beq_eq_false_iff_ne.mpr hq
      simp only [this, Bool.not_false, if_pos]
      rw [lookupKV, lookupKV]
      by_cases hk : q.1 = k
      · rw [if_pos hk, if_pos hk]
      · rw [if_neg hk, if_neg hk]
        exact ih

theorem eraseKV_eq_filter {α : Type} (r : String) (l : List (String × α)) :
    eraseKV r l = l.filter (fun p => !(p.1 == r)) := rfl

theorem nodup_keys_filter {α : Type} {l : List (String × α)} (p : String × α → Bool)
    (h : (l.map Prod.fst).Nodup) : ((l.filter p).map Prod.fst).Nodup :=
  ((List.filter_sublist l).map Prod.fst).nodup h

theorem filter_mem_cons_of_drop {α : Type} (l : List (String × α)) (r : String)
    (rest : List String) (v : String × α → Bool)
    (hv : ∀ p ∈ l, p.1 = r → v p = false) :
    (eraseKV r l).filter (fun p => if p.1 ∈ rest then v p else true)
      = l.filter (fun p => if p.1 ∈ r :: rest then v p else true) := by
  rw [eraseKV_eq_filter, List.filter_filter]
  refine List.filter_congr ?_
  intro p hp
  by_cases h : p.1 = r
  · have hb : (p.1 == r) = true := beq_iff_eq.mpr h
    simp [hb, h, hv p hp h]
  · have hb : (p.1 == r) = false := beq_eq_false_iff_ne.mpr h
    simp [hb, h]

theorem filter_mem_cons_of_keep {α : Type} (l : List (String × α)) (r : String)
    (rest : List String) (v : String × α → Bool)
    (hv : ∀ p ∈ l, p.1 = r → v p = true) :
    l.filter (fun p => if p.1 ∈ rest then v p else true)
      = l.filter (fun p => if p.1 ∈ r :: rest then v p else true) := by
  refine List.filter_congr ?_
  intro p hp
  by_cases h : p.1 = r
  · simp [h, hv p hp h]
  · simp [h]

/-! ## Characterization of the meeting-cleanup loop -/

theorem meetingStale_congr {s s' : Store} (h : s'.rooms = s.rooms) (r : String) :
    meetingStale s' r = meetingStale s r := by
  simp [meetingStale, getRoomById, h]

theorem isAbandonedAt_congr {s s' : Store} (r : String)
    (h : lookupKV r s'.rooms = lookupKV r s.rooms) :
    isAbandonedAt s' r = isAbandonedAt s r := by
  simp [isAbandonedAt, getRoomById, h]

theorem reconcileMeetings_spec (cfg : Config) (ext : String → FetchOutcome)
    (ids : List String) (s : Store) :
    (reconcileMeetings cfg ext noBad ids s).1.rooms = s.rooms
    ∧ (reconcileMeetings cfg ext noBad ids s).1.roomCodes = s.roomCodes
    ∧ (reconcileMeetings cfg ext noBad ids s).1.chats = s.chats
    ∧ (reconcileMeetings cfg ext noBad ids s).1.meetings
        = s.meetings.filter (fun p => if p.1 ∈ ids then !(meetingStale s p.1) else true)
    ∧ (reconcileMeetings cfg ext noBad ids s).2.aborted = false := by
  induction ids generalizing s with
  | nil =>
    refine ⟨rfl, rfl, rfl, ?_, rfl⟩
    simp [reconcileMeetings]
  | cons r rest ih =>
    rw [reconcileMeetings]
    simp only [noBad, Bool.false_eq_true, reduceIte]
    by_cases hq : meetingStale s r = true
    · rw [if_pos hq]
      cases hm : getMeetingId r s with
      | some mid =>
        simp only
        obtain ⟨h1, h2, h3, h4, h5⟩ := ih (deleteMeetingId r s)
        refine ⟨h1, h2, h3, ?_, h5⟩
        rw [h4]
        have hrooms : (deleteMeetingId r s).rooms = s.rooms := rfl
        have hcongr : ∀ p ∈ (deleteMeetingId r s).meetings,
            (fun p : String × String =>
              if p.1 ∈ rest then !(meetingStale (deleteMeetingId r s) p.1) else true) p
            = (fun p : String × String =>
              if p.1 ∈ rest then !(meetingStale s p.1) else true) p := by
          intro p _
          simp only [meetingStale_congr hrooms]
        rw [List.filter_congr hcongr]
        have : (deleteMeetingId r s).meetings = eraseKV r s.meetings := rfl
        rw [this]
        exact filter_mem_cons_of_drop s.meetings r rest _
          (fun p _ hp => by rw [hp, hq]; rfl)
      | none =>
        obtain ⟨h1, h2, h3, h4, h5⟩ := ih s
        refine ⟨h1, h2, h3, ?_, h5⟩
        rw [h4]
        refine filter_mem_cons_of_keep s.meetings r rest _ ?_
        intro p hpm hp
        exfalso
        have : r ∉ s.meetings.map Prod.fst := (lookupKV_eq_none_iff r s.meetings).mp hm
        exact this (List.mem_map.mpr ⟨p, hpm, hp⟩)
    · rw [if_neg hq]
      obtain ⟨h1, h2, h3, h4, h5⟩ := ih s
      refine ⟨h1, h2, h3, ?_, h5⟩
      rw [h4]
      refine filter_mem_cons_of_keep s.meetings r rest _ ?_
      intro p _ hp
      rw [hp]
      simp [Bool.not_eq_true] at hq
      rw [hq]
      rfl

theorem reconcileMeetings_attempts (cfg : Config) (ext : String → FetchOutcome)
    (ids : List String) (s : Store) (r m : String) (hr : r ∈ ids)
    (hm : getMeetingId r s = some m) (hq : meetingStale s r = true) :
    m ∈ (reconcileMeetings cfg ext noBad ids s).2.attempts := by
  induction ids generalizing s with
  | nil => simp at hr
  | cons i rest ih =>
    rw [reconcileMeetings]
    simp only [noBad, Bool.false_eq_true, reduceIte]
    by_cases hir : i = r
    · subst hir
      rw [if_pos hq, hm]
      exact List.mem_cons_self _ _
    · have hr' : r ∈ rest := by
        rcases List.mem_cons.mp hr with h | h
        · exact absurd h.symm hir
        · exact h
      by_cases hqi : meetingStale s i = true
      · rw [if_pos hqi]
        cases hmi : getMeetingId i s with
        | some midi =>
          simp only
          have hlook : getMeetingId r (deleteMeetingId i s) = some m := by
            show lookupKV r (eraseKV i s.meetings) = some m
            rw [lookupKV_eraseKV_ne s.meetings (fun h => hir h.symm)]
            exact hm
          have hq' : meetingStale (deleteMeetingId i s) r = true := by
            rw [meetingStale_congr (rfl : (deleteMeetingId i s).rooms = s.rooms)]
            exact hq
          exact List.mem_cons_of_mem _ (ih (deleteMeetingId i s) hr' hlook hq')
        | none =>
          exact ih s hr' hm hq
      · rw [if_neg hqi]
        exact ih s hr' hm hq

/-! ## Characterization of the abandoned-room cleanup loop -/

theorem cleanupRooms_cons_bad (cfg : Config) (ext : String → FetchOutcome)
    (bad : String → Bool) (i : String) (rest : List String) (s : Store)
    (hb : bad i = true) :
    cleanupRooms cfg ext bad (i :: rest) s = (s, ⟨[], [], true⟩) := by
  rw [cleanupRooms, hb]
  rfl

theorem cleanupRooms_cons_none (cfg : Config) (ext : String → FetchOutcome)
    (bad : String → Bool) (i : String) (rest : List String) (s : Store)
    (hb : bad i = false) (h : getRoomById i s = none) :
    cleanupRooms cfg ext bad (i :: rest) s = cleanupRooms cfg ext bad rest s := by
  rw [cleanupRooms, hb, h]
  rfl

theorem cleanupRooms_cons_keep (cfg : Config) (ext : String → FetchOutcome)
    (bad : String → Bool) (i : String) (rest : List String) (s : Store)
    (room : RoomData) (hb : bad i = false) (h : getRoomById i s = some room)
    (hab : isAbandoned room = false) :
    cleanupRooms cfg ext bad (i :: rest) s = cleanupRooms cfg ext bad rest s := by
  rw [cleanupRooms, hb, h]
  simp [hab]

theorem cleanupRooms_cons_del_meet (cfg : Config) (ext : String → FetchOutcome)
    (bad : String → Bool) (i : String) (rest : List String) (s : Store)
    (room : RoomData) (mid : String) (hb : bad i = false)
    (h : getRoomById i s = some room) (hab : isAbandoned room = true)
    (hm : getMeetingId i s = some mid) :
    cleanupRooms cfg ext bad (i :: rest) s
      = ((cleanupRooms cfg ext bad rest (deleteRoom room (deleteMeetingId i s))).1,
          SweepLog.append ⟨[mid], (deleteCloudfareMeeting cfg ext mid).2, false⟩
            (cleanupRooms cfg ext bad rest (deleteRoom room (deleteMeetingId i s))).2) := by
  rw [cleanupRooms, hb, h]
  simp only [hab, reduceIte]
  rw [hm]
  rfl

theorem cleanupRooms_cons_del_nomeet (cfg : Config) (ext : String → FetchOutcome)
    (bad : String → Bool) (i : String) (rest : List String) (s : Store)
    (room : RoomData) (hb : bad i = false)
    (h : getRoomById i s = some room) (hab : isAbandoned room = true)
    (hm : getMeetingId i s = none) :
    cleanupRooms cfg ext bad (i :: rest) s
      = ((cleanupRooms cfg ext bad rest (deleteRoom room s)).1,
          SweepLog.append SweepLog.empty
            (cleanupRooms cfg ext bad rest (deleteRoom room s)).2) := by
  rw [cleanupRooms, hb, h]
  simp only [hab, reduceIte]
  rw [hm]
  rfl

theorem cleanupRooms_spec (cfg : Config) (ext : String → FetchOutcome)
    (ids : List String) (s : Store)
    (hnd : (s.rooms.map Prod.fst).Nodup) (hkey : ∀ p ∈ s.rooms, p.2.id = p.1) :
    (cleanupRooms cfg ext noBad ids s).1.rooms
        = s.rooms.filter (fun p => if p.1 ∈ ids then !(isAbandoned p.2) else true)
    ∧ (cleanupRooms cfg ext noBad ids s).1.meetings
        = s.meetings.filter (fun p => if p.1 ∈ ids then !(isAbandonedAt s p.1) else true)
    ∧ (cleanupRooms cfg ext noBad ids s).1.chats
        = s.chats.filter (fun p => if p.1 ∈ ids then !(isAbandonedAt s p.1) else true)
    ∧ (cleanupRooms cfg ext noBad ids s).2.aborted = false := by
  induction ids generalizing s with
  | nil =>
    refine ⟨?_, ?_, ?_, rfl⟩ <;> simp [cleanupRooms]
  | cons i rest ih =>
    cases hroom : getRoomById i s with
    | none =>
      rw [cleanupRooms_cons_none cfg ext noBad i rest s rfl hroom]
      have hnotmem : i ∉ s.rooms.map Prod.fst := (lookupKV_eq_none_iff i s.rooms).mp hroom
      obtain ⟨h1, h2, h3, h4⟩ := ih s hnd hkey
      have habs : isAbandonedAt s i = false := by
        rw [isAbandonedAt, hroom]
      refine ⟨?_, ?_, ?_, h4⟩
      · rw [h1]
        refine filter_mem_cons_of_keep s.rooms i rest _ ?_
        intro p hpm hp
        exact absurd (List.mem_map.mpr ⟨p, hpm, hp⟩) hnotmem
      · rw [h2]
        refine filter_mem_cons_of_keep s.meetings i rest _ ?_
        intro p _ hp
        rw [hp, habs]
        rfl
      · rw [h3]
        refine filter_mem_cons_of_keep s.chats i rest _ ?_
        intro p _ hp
        rw [hp, habs]
        rfl
    | some room =>
      have hid : room.id = i := hkey _ (lookupKV_mem hroom)
      have habs : isAbandonedAt s i = isAbandoned room := by
        rw [isAbandonedAt, hroom]
      by_cases hab : isAbandoned room = true
      · cases hmi : getMeetingId i s with
        | some midi =>
          rw [cleanupRooms_cons_del_meet cfg ext noBad i rest s room midi rfl hroom hab hmi]
          set s2 : Store := deleteRoom room (deleteMeetingId i s) with hs2
          have hs2rooms : s2.rooms = eraseKV i s.rooms := by
            rw [hs2]
            show eraseKV room.id s.rooms = eraseKV i s.rooms
            rw [hid]
          have hs2meet : s2.meetings = eraseKV i s.meetings := rfl
          have hs2chats : s2.chats = eraseKV i s.chats := by
            rw [hs2]
            show eraseKV room.id s.chats = eraseKV i s.chats
            rw [hid]
          have hnd2 : (s2.rooms.map Prod.fst).Nodup := by
            rw [hs2rooms, eraseKV_eq_filter]
            exact nodup_keys_filter _ hnd
          have hkey2 : ∀ p ∈ s2.rooms, p.2.id = p.1 := by
            intro p hp
            rw [hs2rooms, eraseKV_eq_filter] at hp
            exact hkey p (List.mem_filter.mp hp).1
          obtain ⟨h1, h2, h3, h4⟩ := ih s2 hnd2 hkey2
          have hlookcongr : ∀ x : String, x ≠ i →
              lookupKV x s2.rooms = lookupKV x s.rooms := by
            intro x hx
            rw [hs2rooms]
            exact lookupKV_eraseKV_ne s.rooms hx
          refine ⟨?_, ?_, ?_, h4⟩
          · rw [h1, hs2rooms]
            refine filter_mem_cons_of_drop s.rooms i rest _ ?_
            intro p hpm hp
            have : p.2 = room := by
              have hlk := lookupKV_of_mem_nodup hnd hpm
              rw [hp] at hlk
              have hroomlk : lookupKV i s.rooms = some room := hroom
              rw [hroomlk] at hlk
              exact (Option.some.inj hlk).symm
            rw [this, hab]
            rfl
          · rw [h2]
            have hcongr : ∀ p ∈ s2.meetings,
                (fun p : String × String =>
                  if p.1 ∈ rest then !(isAbandonedAt s2 p.1) else true) p
                = (fun p : String × String =>
                  if p.1 ∈ rest then !(isAbandonedAt s p.1) else true) p := by
              intro p hp
              have hpne : p.1 ≠ i := by
                rw [hs2meet, eraseKV_eq_filter] at hp
                have := (List.mem_filter.mp hp).2
                simpa using this
              simp only [isAbandonedAt_congr p.1 (hlookcongr p.1 hpne)]
            rw [List.filter_congr hcongr, hs2meet]
            refine filter_mem_cons_of_drop s.meetings i rest _ ?_
            intro p _ hp
            rw [hp, habs, hab]
            rfl
          · rw [h3]
            have hcongr : ∀ p ∈ s2.chats,
                (fun p : String × List ChatMessage =>
                  if p.1 ∈ rest then !(isAbandonedAt s2 p.1) else true) p
                = (fun p : String × List ChatMessage =>
                  if p.1 ∈ rest then !(isAbandonedAt s p.1) else true) p := by
              intro p hp
              have hpne : p.1 ≠ i := by
                rw [hs2chats, eraseKV_eq_filter] at hp
                have := (List.mem_filter.mp hp).2
                simpa using this
              simp only [isAbandonedAt_congr p.1 (hlookcongr p.1 hpne)]
            rw [List.filter_congr hcongr, hs2chats]
            refine filter_mem_cons_of_drop s.chats i rest _ ?_
            intro p _ hp
            rw [hp, habs, hab]
            rfl
        | none =>
          rw [cleanupRooms_cons_del_nomeet cfg ext noBad i rest s room rfl hroom hab hmi]
          set s2 : Store := deleteRoom room s with hs2
          have hs2rooms : s2.rooms = eraseKV i s.rooms := by
            rw [hs2]
            show eraseKV room.id s.rooms = eraseKV i s.rooms
            rw [hid]
          have hs2meet : s2.meetings = s.meetings := rfl
          have hs2chats : s2.chats = eraseKV i s.chats := by
            rw [hs2]
            show eraseKV room.id s.chats = eraseKV i s.chats
            rw [hid]
          have hnomeet : i ∉ s.meetings.map Prod.fst :=
            (lookupKV_eq_none_iff i s.meetings).mp hmi
          have hnd2 : (s2.rooms.map Prod.fst).Nodup := by
            rw [hs2rooms, eraseKV_eq_filter]
            exact nodup_keys_filter _ hnd
          have hkey2 : ∀ p ∈ s2.rooms, p.2.id = p.1 := by
            intro p hp
            rw [hs2rooms, eraseKV_eq_filter] at hp
            exact hkey p (List.mem_filter.mp hp).1
          obtain ⟨h1, h2, h3, h4⟩ := ih s2 hnd2 hkey2
          have hlookcongr : ∀ x : String, x ≠ i →
              lookupKV x s2.rooms = lookupKV x s.rooms := by
            intro x hx
            rw [hs2rooms]
            exact lookupKV_eraseKV_ne s.rooms hx
          refine ⟨?_, ?_, ?_, h4⟩
          · rw [h1, hs2rooms]
            refine filter_mem_cons_of_drop s.rooms i rest _ ?_
            intro p hpm hp
            have : p.2 = room := by
              have hlk := lookupKV_of_mem_nodup hnd hpm
              rw [hp] at hlk
              have hroomlk : lookupKV i s.rooms = some room := hroom
              rw [hroomlk] at hlk
              exact (Option.some.inj hlk).symm
            rw [this, hab]
            rfl
          · rw [h2]
            have hcongr : ∀ p ∈ s2.meetings,
                (fun p : String × String =>
                  if p.1 ∈ rest then !(isAbandonedAt s2 p.1) else true) p
                = (fun p : String × String =>
                  if p.1 ∈ rest then !(isAbandonedAt s p.1) else true) p := by
              intro p hp
              have hpne : p.1 ≠ i := by
                rw [hs2meet] at hp
                intro hcon
                exact hnomeet (List.mem_map.mpr ⟨p, hp, hcon⟩)
              simp only [isAbandonedAt_congr p.1 (hlookcongr p.1 hpne)]
            rw [List.filter_congr hcongr, hs2meet]
            refine filter_mem_cons_of_keep s.meetings i rest _ ?_
            intro p hpm hp
            exact absurd (List.mem_map.mpr ⟨p, hpm, hp⟩) hnomeet
          · rw [h3]
            have hcongr : ∀ p ∈ s2.chats,
                (fun p : String × List ChatMessage =>
                  if p.1 ∈ rest then !(isAbandonedAt s2 p.1) else true) p
                = (fun p : String × List ChatMessage =>
                  if p.1 ∈ rest then !(isAbandonedAt s p.1) else true) p := by
              intro p hp
              have hpne : p.1 ≠ i := by
                rw [hs2chats, eraseKV_eq_filter] at hp
                have := (List.mem_filter.mp hp).2
                simpa using this
              simp only [isAbandonedAt_congr p.1 (hlookcongr p.1 hpne)]
            rw [List.filter_congr hcongr, hs2chats]
            refine filter_mem_cons_of_drop s.chats i rest _ ?_
            intro p _ hp
            rw [hp, habs, hab]
            rfl
      · have hab' : isAbandoned room = false := by
          rcases Bool.eq_false_or_eq_true (isAbandoned room) with h | h
          · exact absurd h hab
          · exact h
        rw [cleanupRooms_cons_keep cfg ext noBad i rest s room rfl hroom hab']
        obtain ⟨h1, h2, h3, h4⟩ := ih s hnd hkey
        refine ⟨?_, ?_, ?_, h4⟩
        · rw [h1]
          refine filter_mem_cons_of_keep s.rooms i rest _ ?_
          intro p hpm hp
          have : p.2 = room := by
            have hlk := lookupKV_of_mem_nodup hnd hpm
            rw [hp] at hlk
            have hroomlk : lookupKV i s.rooms = some room := hroom
            rw [hroomlk] at hlk
            exact (Option.some.inj hlk).symm
          rw [this, hab']
          rfl
        · rw [h2]
          refine filter_mem_cons_of_keep s.meetings i rest _ ?_
          intro p _ hp
          rw [hp, habs, hab']
          rfl
        · rw [h3]
          refine filter_mem_cons_of_keep s.chats i rest _ ?_
          intro p _ hp
          rw [hp, habs, hab']
          rfl

theorem cleanupRooms_attempts (cfg : Config) (ext : String → FetchOutcome)
    (ids : List String) (s : Store)
    (hnd : (s.rooms.map Prod.fst).Nodup) (hkey : ∀ p ∈ s.rooms, p.2.id = p.1)
    (r : String) (room : RoomData) (m : String) (hr : r ∈ ids)
    (hroom : getRoomById r s = some room) (hab : isAbandoned room = true)
    (hm : getMeetingId r s = some m) :
    m ∈ (cleanupRooms cfg ext noBad ids s).2.attempts := by
  induction ids generalizing s with
  | nil => simp at hr
  | cons i rest ih =>
    by_cases hir : i = r
    · subst hir
      rw [cleanupRooms_cons_del_meet cfg ext noBad i rest s room m rfl hroom hab hm]
      simp [SweepLog.append]
    · have hr' : r ∈ rest := by
        rcases List.mem_cons.mp hr with h | h
        · exact absurd h.symm hir
        · exact h
      have hrne : r ≠ i := fun h => hir h.symm
      cases hroomi : getRoomById i s with
      | none =>
        rw [cleanupRooms_cons_none cfg ext noBad i rest s rfl hroomi]
        exact ih s hnd hkey hr' hroom hm
      | some roomi =>
        have hidi : roomi.id = i := hkey _ (lookupKV_mem hroomi)
        by_cases habi : isAbandoned roomi = true
        · cases hmi : getMeetingId i s with
          | some midi =>
            rw [cleanupRooms_cons_del_meet cfg ext noBad i rest s roomi midi rfl hroomi habi hmi]
            set s2 : Store := deleteRoom roomi (deleteMeetingId i s) with hs2
            have hs2rooms : s2.rooms = eraseKV i s.rooms := by
              rw [hs2]
              show eraseKV roomi.id s.rooms = eraseKV i s.rooms
              rw [hidi]
            have hs2meet : s2.meetings = eraseKV i s.meetings := rfl
            have hnd2 : (s2.rooms.map Prod.fst).Nodup := by
              rw [hs2rooms, eraseKV_eq_filter]
              exact nodup_keys_filter _ hnd
            have hkey2 : ∀ p ∈ s2.rooms, p.2.id = p.1 := by
              intro p hp
              rw [hs2rooms, eraseKV_eq_filter] at hp
              exact hkey p (List.mem_filter.mp hp).1
            have hroom2 : getRoomById r s2 = some room := by
              show lookupKV r s2.rooms = some room
              rw [hs2rooms, lookupKV_eraseKV_ne s.rooms hrne]
              exact hroom
            have hm2 : getMeetingId r s2 = some m := by
              show lookupKV r s2.meetings = some m
              rw [hs2meet, lookupKV_eraseKV_ne s.meetings hrne]
              exact hm
            have := ih s2 hnd2 hkey2 hr' hroom2 hm2
            simp only [SweepLog.append]
            exact List.mem_append_right _ this
          | none =>
            rw [cleanupRooms_cons_del_nomeet cfg ext noBad i rest s roomi rfl hroomi habi hmi]
            set s2 : Store := deleteRoom roomi s with hs2
            have hs2rooms : s2.rooms = eraseKV i s.rooms := by
              rw [hs2]
              show eraseKV roomi.id s.rooms = eraseKV i s.rooms
              rw [hidi]
            have hnd2 : (s2.rooms.map Prod.fst).Nodup := by
              rw [hs2rooms, eraseKV_eq_filter]
              exact nodup_keys_filter _ hnd
            have hkey2 : ∀ p ∈ s2.rooms, p.2.id = p.1 := by
              intro p hp
              rw [hs2rooms, eraseKV_eq_filter] at hp
              exact hkey p (List.mem_filter.mp hp).1
            have hroom2 : getRoomById r s2 = some room := by
              show lookupKV r s2.rooms = some room
              rw [hs2rooms, lookupKV_eraseKV_ne s.rooms hrne]
              exact hroom
            have hm2 : getMeetingId r s2 = some m := hm
            have := ih s2 hnd2 hkey2 hr' hroom2 hm2
            simp only [SweepLog.append]
            exact List.mem_append_right _ this
        · have habi' : isAbandoned roomi = false := by
            rcases Bool.eq_false_or_eq_true (isAbandoned roomi) with h | h
            · exact absurd h habi
            · exact h
          rw [cleanupRooms_cons_keep cfg ext noBad i rest s roomi rfl hroomi habi']
          exact ih s hnd hkey hr' hroom hm

/-! ## No-op runs of the sweep on a clean store -/

theorem reconcileMeetings_noop (cfg : Config) (ext : String → FetchOutcome)
    (ids : List String) (s : Store) (h : ∀ r ∈ ids, meetingStale s r = false) :
    reconcileMeetings cfg ext noBad ids s = (s, SweepLog.empty) := by
  induction ids with
  | nil => rfl
  | cons i rest ih =>
    rw [reconcileMeetings]
    simp only [noBad, Bool.false_eq_true, reduceIte]
    rw [h i (List.mem_cons_self _ _)]
    simp only [Bool.false_eq_true, reduceIte]
    exact ih (fun r hr => h r (List.mem_cons_of_mem _ hr))

theorem cleanupRooms_noop (cfg : Config) (ext : String → FetchOutcome)
    (ids : List String) (s : Store) (h : ∀ r ∈ ids, isAbandonedAt s r = false) :
    cleanupRooms cfg ext noBad ids s = (s, SweepLog.empty) := by
  induction ids with
  | nil => rfl
  | cons i rest ih =>
    have hrest := fun r hr => h r (List.mem_cons_of_mem _ hr)
    cases hroomi : getRoomById i s with
    | none =>
      rw [cleanupRooms_cons_none cfg ext noBad i rest s rfl hroomi]
      exact ih hrest
    | some roomi =>
      have habi : isAbandoned roomi = false := by
        have := h i (List.mem_cons_self _ _)
        rw [isAbandonedAt, hroomi] at this
        exact this
      rw [cleanupRooms_cons_keep cfg ext noBad i rest s roomi rfl hroomi habi]
      exact ih hrest

/-! ## Whole-sweep lemmas -/

theorem runReconciliation_run (cfg : Config) (ext : String → FetchOutcome) (s : Store) :
    runReconciliation cfg ext noBad true s
      = ((cleanupRooms cfg ext noBad
            (getAllRoomIds (reconcileMeetings cfg ext noBad (getAllMeetingRoomIds s) s).1)
            (reconcileMeetings cfg ext noBad (getAllMeetingRoomIds s) s).1).1,
          SweepLog.append (reconcileMeetings cfg ext noBad (getAllMeetingRoomIds s) s).2
            (cleanupRooms cfg ext noBad
              (getAllRoomIds (reconcileMeetings cfg ext noBad (getAllMeetingRoomIds s) s).1)
              (reconcileMeetings cfg ext noBad (getAllMeetingRoomIds s) s).1).2) := by
  have hab := (reconcileMeetings_spec cfg ext (getAllMeetingRoomIds s) s).2.2.2.2
  rw [runReconciliation]
  simp only [Bool.true_eq_false, reduceIte, hab, Bool.false_eq_true, cleanupAbandonedRooms]

theorem sweep_clears_stale_mapping (cfg : Config) (ext : String → FetchOutcome)
    (s : Store) (hwf : StoreWF s) (r m : String)
    (hm : getMeetingId r s = some m) (hq : meetingStale s r = true) :
    getMeetingId r (runReconciliation cfg ext noBad true s).1 = none
    ∧ m ∈ (runReconciliation cfg ext noBad true s).2.attempts := by
  obtain ⟨hnd, hmnd, hkey⟩ := hwf
  rw [runReconciliation_run]
  set s1 : Store := (reconcileMeetings cfg ext noBad (getAllMeetingRoomIds s) s).1 with hs1
  obtain ⟨h1rooms, _, _, h1meet, _⟩ := reconcileMeetings_spec cfg ext (getAllMeetingRoomIds s) s
  have hnd1 : (s1.rooms.map Prod.fst).Nodup := by rw [h1rooms]; exact hnd
  have hkey1 : ∀ p ∈ s1.rooms, p.2.id = p.1 := by
    intro p hp
    rw [h1rooms] at hp
    exact hkey p hp
  obtain ⟨_, h2meet, _, _⟩ := cleanupRooms_spec cfg ext (getAllRoomIds s1) s1 hnd1 hkey1
  have hgone1 : lookupKV r s1.meetings = none := by
    rw [h1meet]
    apply lookupKV_filter_none
    intro v _
    have hrmem : r ∈ getAllMeetingRoomIds s :=
      List.mem_map.mpr ⟨(r, m), lookupKV_mem hm, rfl⟩
    simp [hrmem, hq]
  constructor
  · show lookupKV r (cleanupRooms cfg ext noBad (getAllRoomIds s1) s1).1.meetings = none
    rw [h2meet]
    apply lookupKV_filter_none
    intro v hv
    exfalso
    have : r ∈ s1.meetings.map Prod.fst := List.mem_map.mpr ⟨(r, v), hv, rfl⟩
    exact (lookupKV_eq_none_iff r s1.meetings).mp hgone1 this
  · show m ∈ (SweepLog.append _ _).attempts
    have hrmem : r ∈ getAllMeetingRoomIds s :=
      List.mem_map.mpr ⟨(r, m), lookupKV_mem hm, rfl⟩
    exact List.mem_append_left _
      (reconcileMeetings_attempts cfg ext (getAllMeetingRoomIds s) s r m hrmem hm hq)

theorem sweep_clears_abandoned_room (cfg : Config) (ext : String → FetchOutcome)
    (s : Store) (hwf : StoreWF s) (r : String) (room : RoomData)
    (hroom : getRoomById r s = some room) (hab : isAbandoned room = true) :
    getRoomById r (runReconciliation cfg ext noBad true s).1 = none
    ∧ lookupKV r (runReconciliation cfg ext noBad true s).1.chats = none
    ∧ getMeetingId r (runReconciliation cfg ext noBad true s).1 = none
    ∧ ∀ m, getMeetingId r s = some m →
        m ∈ (runReconciliation cfg ext noBad true s).2.attempts := by
  obtain ⟨hnd, hmnd, hkey⟩ := hwf
  rw [runReconciliation_run]
  set s1 : Store := (reconcileMeetings cfg ext noBad (getAllMeetingRoomIds s) s).1 with hs1
  obtain ⟨h1rooms, _, h1chats, h1meet, _⟩ :=
    reconcileMeetings_spec cfg ext (getAllMeetingRoomIds s) s
  have hnd1 : (s1.rooms.map Prod.fst).Nodup := by rw [h1rooms]; exact hnd
  have hkey1 : ∀ p ∈ s1.rooms, p.2.id = p.1 := by
    intro p hp
    rw [h1rooms] at hp
    exact hkey p hp
  obtain ⟨h2rooms, h2meet, h2chats, _⟩ :=
    cleanupRooms_spec cfg ext (getAllRoomIds s1) s1 hnd1 hkey1
  have hroom1 : getRoomById r s1 = some room := by
    show lookupKV r s1.rooms = some room
    rw [h1rooms]
    exact hroom
  have hrmem1 : r ∈ getAllRoomIds s1 :=
    List.mem_map.mpr ⟨(r, room), lookupKV_mem hroom1, rfl⟩
  have habAt : isAbandonedAt s1 r = true := by
    rw [isAbandonedAt, hroom1]
    exact hab
  refine ⟨?_, ?_, ?_, ?_⟩
  · show lookupKV r (cleanupRooms cfg ext noBad (getAllRoomIds s1) s1).1.rooms = none
    rw [h2rooms]
    apply lookupKV_filter_none
    intro v hv
    have hveq : v = room := by
      have hl : lookupKV r s1.rooms = some room := hroom1
      have := lookupKV_of_mem_nodup hnd1 hv
      rw [hl] at this
      exact (Option.some.inj this).symm
    simp [hrmem1, hveq, hab]
  · show lookupKV r (cleanupRooms cfg ext noBad (getAllRoomIds s1) s1).1.chats = none
    rw [h2chats]
    apply lookupKV_filter_none
    intro v _
    simp [hrmem1, habAt]
  · show lookupKV r (cleanupRooms cfg ext noBad (getAllRoomIds s1) s1).1.meetings = none
    rw [h2meet]
    apply lookupKV_filter_none
    intro v _
    simp [hrmem1, habAt]
  · intro m hm
    show m ∈ (SweepLog.append _ _).attempts
    by_cases hq : meetingStale s r = true
    · have hrmem : r ∈ getAllMeetingRoomIds s :=
        List.mem_map.mpr ⟨(r, m), lookupKV_mem hm, rfl⟩
      exact List.mem_append_left _
        (reconcileMeetings_attempts cfg ext (getAllMeetingRoomIds s) s r m hrmem hm hq)
    · have hq' : meetingStale s r = false := by
        rcases Bool.eq_false_or_eq_true (meetingStale s r) with h | h
        · exact absurd h hq
        · exact h
      have hm1 : getMeetingId r s1 = some m := by
        show lookupKV r s1.meetings = some m
        rw [h1meet]
        apply lookupKV_filter_some _ hm
        simp [hq']
      exact List.mem_append_right _
        (cleanupRooms_attempts cfg ext (getAllRoomIds s1) s1 hnd1 hkey1 r room m
          hrmem1 hroom1 hab hm1)

theorem meetingStale_of_some {s : Store} {r : String} {room : RoomData}
    (h : getRoomById r s = some room) :
    meetingStale s r = (room.state == RoomState.lobby) := by
  rw [meetingStale, h]

theorem meetingStale_of_none {s : Store} {r : String}
    (h : getRoomById r s = none) : meetingStale s r = true := by
  rw [meetingStale, h]

theorem isAbandonedAt_of_some {s : Store} {r : String} {room : RoomData}
    (h : getRoomById r s = some room) : isAbandonedAt s r = isAbandoned room := by
  rw [isAbandonedAt, h]

theorem sweep_post_clean (cfg : Config) (ext : String → FetchOutcome)
    (s : Store) (hwf : StoreWF s) :
    StoreWF (runReconciliation cfg ext noBad true s).1
    ∧ (∀ r ∈ getAllMeetingRoomIds (runReconciliation cfg ext noBad true s).1,
        meetingStale (runReconciliation cfg ext noBad true s).1 r = false)
    ∧ (∀ r ∈ getAllRoomIds (runReconciliation cfg ext noBad true s).1,
        isAbandonedAt (runReconciliation cfg ext noBad true s).1 r = false) := by
  obtain ⟨hnd, hmnd, hkey⟩ := hwf
  rw [runReconciliation_run]
  set s1 : Store := (reconcileMeetings cfg ext noBad (getAllMeetingRoomIds s) s).1 with hs1
  obtain ⟨h1rooms, _, _, h1meet, _⟩ :=
    reconcileMeetings_spec cfg ext (getAllMeetingRoomIds s) s
  have hnd1 : (s1.rooms.map Prod.fst).Nodup := by rw [h1rooms]; exact hnd
  have hkey1 : ∀ p ∈ s1.rooms, p.2.id = p.1 := by
    intro p hp
    rw [h1rooms] at hp
    exact hkey p hp
  obtain ⟨h2rooms, h2meet, h2chats, _⟩ :=
    cleanupRooms_spec cfg ext (getAllRoomIds s1) s1 hnd1 hkey1
  set s2 : Store := (cleanupRooms cfg ext noBad (getAllRoomIds s1) s1).1 with hs2
  have hnd2 : (s2.rooms.map Prod.fst).Nodup := by
    rw [hs2, h2rooms]
    exact nodup_keys_filter _ hnd1
  have hmnd2 : (s2.meetings.map Prod.fst).Nodup := by
    rw [hs2, h2meet, h1meet]
    exact nodup_keys_filter _ (nodup_keys_filter _ hmnd)
  have hkey2 : ∀ p ∈ s2.rooms, p.2.id = p.1 := by
    intro p hp
    rw [hs2, h2rooms] at hp
    exact hkey1 p (List.mem_filter.mp hp).1
  refine ⟨⟨hnd2, hmnd2, hkey2⟩, ?_, ?_⟩
  · intro r hr
    obtain ⟨p, hpmem, hpr⟩ := List.mem_map.mp hr
    subst hpr
    rw [hs2, h2meet] at hpmem
    obtain ⟨hpm1, hpred2⟩ := List.mem_filter.mp hpmem
    rw [h1meet] at hpm1
    obtain ⟨hpm, hpred1⟩ := List.mem_filter.mp hpm1
    have hmem1 : p.1 ∈ getAllMeetingRoomIds s := List.mem_map.mpr ⟨p, hpm, rfl⟩
    rw [if_pos hmem1] at hpred1
    have hstale : meetingStale s p.1 = false := by
      rcases Bool.eq_false_or_eq_true (meetingStale s p.1) with h | h
      · rw [h] at hpred1
        exact absurd hpred1 (by simp)
      · exact h
    cases hg : getRoomById p.1 s with
    | none =>
      rw [meetingStale_of_none hg] at hstale
      exact absurd hstale (by simp)
    | some room =>
      rw [meetingStale_of_some hg] at hstale
      have hgmem : p.1 ∈ getAllRoomIds s1 := by
        show p.1 ∈ s1.rooms.map Prod.fst
        rw [h1rooms]
        exact List.mem_map.mpr ⟨(p.1, room), lookupKV_mem hg, rfl⟩
      rw [if_pos hgmem] at hpred2
      have habf : isAbandonedAt s1 p.1 = false := by
        rcases Bool.eq_false_or_eq_true (isAbandonedAt s1 p.1) with h | h
        · rw [h] at hpred2
          exact absurd hpred2 (by simp)
        · exact h
      have hg1 : getRoomById p.1 s1 = some room := by
        show lookupKV p.1 s1.rooms = some room
        rw [h1rooms]
        exact hg
      rw [isAbandonedAt_of_some hg1] at habf
      have hg2 : getRoomById p.1 s2 = some room := by
        show lookupKV p.1 s2.rooms = some room
        rw [hs2, h2rooms]
        apply lookupKV_filter_some _ hg1
        simp [hgmem, habf]
      rw [meetingStale_of_some hg2]
      exact hstale
  · intro r hr
    obtain ⟨p, hpmem, hpr⟩ := List.mem_map.mp hr
    subst hpr
    rw [hs2, h2rooms] at hpmem
    obtain ⟨hpm1, hpred⟩ := List.mem_filter.mp hpmem
    have hmem1 : p.1 ∈ getAllRoomIds s1 := List.mem_map.mpr ⟨p, hpm1, rfl⟩
    rw [if_pos hmem1] at hpred
    have habf : isAbandoned p.2 = false := by
      rcases Bool.eq_false_or_eq_true (isAbandoned p.2) with h | h
      · rw [h] at hpred
        exact absurd hpred (by simp)
      · exact h
    have hg2 : getRoomById p.1 s2 = some p.2 := by
      show lookupKV p.1 s2.rooms = some p.2
      exact lookupKV_of_mem_nodup hnd2 (by rw [hs2, h2rooms]; exact hpmem)
    rw [isAbandonedAt_of_some hg2]
    exact habf

theorem sweep_idempotent_aux (cfg : Config) (ext : String → FetchOutcome)
    (s : Store) (hwf : StoreWF s) :
    runReconciliation cfg ext noBad true (runReconciliation cfg ext noBad true s).1
      = ((runReconciliation cfg ext noBad true s).1, SweepLog.empty) := by
  obtain ⟨_, hcleanMeet, hcleanRooms⟩ := sweep_post_clean cfg ext s hwf
  set s2 : Store := (runReconciliation cfg ext noBad true s).1 with hs2
  rw [runReconciliation_run, reconcileMeetings_noop cfg ext _ s2 hcleanMeet]
  rw [show ((s2, SweepLog.empty) : Store × SweepLog).1 = s2 from rfl]
  rw [cleanupRooms_noop cfg ext _ s2 hcleanRooms]
  rfl

/-! ## Case equations for the meeting-cleanup loop -/

theorem reconcileMeetings_cons_bad (cfg : Config) (ext : String → FetchOutcome)
    (bad : String → Bool) (i : String) (rest : List String) (s : Store)
    (hb : bad i = true) :
    reconcileMeetings cfg ext bad (i :: rest) s = (s, ⟨[], [], true⟩) := by
  rw [reconcileMeetings, hb]
  rfl

theorem reconcileMeetings_cons_del (cfg : Config) (ext : String → FetchOutcome)
    (bad : String → Bool) (i : String) (rest : List String) (s : Store) (mid : String)
    (hb : bad i = false) (hq : meetingStale s i = true)
    (hm : getMeetingId i s = some mid) :
    reconcileMeetings cfg ext bad (i :: rest) s
      = ((reconcileMeetings cfg ext bad rest (deleteMeetingId i s)).1,
          ⟨mid :: (reconcileMeetings cfg ext bad rest (deleteMeetingId i s)).2.attempts,
            (deleteCloudfareMeeting cfg ext mid).2
              ++ (reconcileMeetings cfg ext bad rest (deleteMeetingId i s)).2.requests,
            (reconcileMeetings cfg ext bad rest (deleteMeetingId i s)).2.aborted⟩) := by
  rw [reconcileMeetings, hb]
  simp only [Bool.false_eq_true, reduceIte, hq]
  rw [hm]

theorem reconcileMeetings_cons_nomeet (cfg : Config) (ext : String → FetchOutcome)
    (bad : String → Bool) (i : String) (rest : List String) (s : Store)
    (hb : bad i = false) (hq : meetingStale s i = true)
    (hm : getMeetingId i s = none) :
    reconcileMeetings cfg ext bad (i :: rest) s = reconcileMeetings cfg ext bad rest s := by
  rw [reconcileMeetings, hb]
  simp only [Bool.false_eq_true, reduceIte, hq]
  rw [hm]

theorem reconcileMeetings_cons_fresh (cfg : Config) (ext : String → FetchOutcome)
    (bad : String → Bool) (i : String) (rest : List String) (s : Store)
    (hb : bad i = false) (hq : meetingStale s i = false) :
    reconcileMeetings cfg ext bad (i :: rest) s = reconcileMeetings cfg ext bad rest s := by
  rw [reconcileMeetings, hb]
  simp only [Bool.false_eq_true, reduceIte, hq]

/-! ## The external oracle never influences the store outcome of a sweep -/

theorem reconcileMeetings_ext_irrel (cfg : Config) (ext ext' : String → FetchOutcome)
    (bad : String → Bool) (ids : List String) (s : Store) :
    (reconcileMeetings cfg ext bad ids s).1 = (reconcileMeetings cfg ext' bad ids s).1
    ∧ (reconcileMeetings cfg ext bad ids s).2.attempts
        = (reconcileMeetings cfg ext' bad ids s).2.attempts
    ∧ (reconcileMeetings cfg ext bad ids s).2.aborted
        = (reconcileMeetings cfg ext' bad ids s).2.aborted := by
  induction ids generalizing s with
  | nil => exact ⟨rfl, rfl, rfl⟩
  | cons i rest ih =>
    by_cases hb : bad i = true
    · rw [reconcileMeetings_cons_bad cfg ext bad i rest s hb,
        reconcileMeetings_cons_bad cfg ext' bad i rest s hb]
      exact ⟨rfl, rfl, rfl⟩
    · have hb' : bad i = false := by
        rcases Bool.eq_false_or_eq_true (bad i) with h | h
        · exact absurd h hb
        · exact h
      by_cases hq : meetingStale s i = true
      · cases hm : getMeetingId i s with
        | some mid =>
          rw [reconcileMeetings_cons_del cfg ext bad i rest s mid hb' hq hm,
            reconcileMeetings_cons_del cfg ext' bad i rest s mid hb' hq hm]
          obtain ⟨e1, e2, e3⟩ := ih (deleteMeetingId i s)
          exact ⟨e1, by rw [e2], e3⟩
        | none =>
          rw [reconcileMeetings_cons_nomeet cfg ext bad i rest s hb' hq hm,
            reconcileMeetings_cons_nomeet cfg ext' bad i rest s hb' hq hm]
          exact ih s
      · have hq' : meetingStale s i = false := by
          rcases Bool.eq_false_or_eq_true (meetingStale s i) with h | h
          · exact absurd h hq
          · exact h
        rw [reconcileMeetings_cons_fresh cfg ext bad i rest s hb' hq',
          reconcileMeetings_cons_fresh cfg ext' bad i rest s hb' hq']
        exact ih s

theorem cleanupRooms_ext_irrel (cfg : Config) (ext ext' : String → FetchOutcome)
    (bad : String → Bool) (ids : List String) (s : Store) :
    (cleanupRooms cfg ext bad ids s).1 = (cleanupRooms cfg ext' bad ids s).1
    ∧ (cleanupRooms cfg ext bad ids s).2.attempts
        = (cleanupRooms cfg ext' bad ids s).2.attempts
    ∧ (cleanupRooms cfg ext bad ids s).2.aborted
        = (cleanupRooms cfg ext' bad ids s).2.aborted := by
  induction ids generalizing s with
  | nil => exact ⟨rfl, rfl, rfl⟩
  | cons i rest ih =>
    by_cases hb : bad i = true
    · rw [cleanupRooms_cons_bad cfg ext bad i rest s hb,
        cleanupRooms_cons_bad cfg ext' bad i rest s hb]
      exact ⟨rfl, rfl, rfl⟩
    · have hb' : bad i = false := by
        rcases Bool.eq_false_or_eq_true (bad i) with h | h
        · exact absurd h hb
        · exact h
      cases hroom : getRoomById i s with
      | none =>
        rw [cleanupRooms_cons_none cfg ext bad i rest s hb' hroom,
          cleanupRooms_cons_none cfg ext' bad i rest s hb' hroom]
        exact ih s
      | some room =>
        by_cases hab : isAbandoned room = true
        · cases hm : getMeetingId i s with
          | some mid =>
            rw [cleanupRooms_cons_del_meet cfg ext bad i rest s room mid hb' hroom hab hm,
              cleanupRooms_cons_del_meet cfg ext' bad i rest s room mid hb' hroom hab hm]
            obtain ⟨e1, e2, e3⟩ := ih (deleteRoom room (deleteMeetingId i s))
            refine ⟨e1, ?_, ?_⟩
            · simp only [SweepLog.append]
              rw [e2]
            · simp only [SweepLog.append]
              rw [e3]
          | none =>
            rw [cleanupRooms_cons_del_nomeet cfg ext bad i rest s room hb' hroom hab hm,
              cleanupRooms_cons_del_nomeet cfg ext' bad i rest s room hb' hroom hab hm]
            obtain ⟨e1, e2, e3⟩ := ih (deleteRoom room s)
            refine ⟨e1, ?_, ?_⟩
            · simp only [SweepLog.append, SweepLog.empty]
              rw [e2]
            · simp only [SweepLog.append, SweepLog.empty]
              rw [e3]
        · have hab' : isAbandoned room = false := by
            rcases Bool.eq_false_or_eq_true (isAbandoned room) with h | h
            · exact absurd h hab
            · exact h
          rw [cleanupRooms_cons_keep cfg ext bad i rest s room hb' hroom hab',
            cleanupRooms_cons_keep cfg ext' bad i rest s room hb' hroom hab']
          exact ih s

theorem runReconciliation_ext_irrel (cfg : Config) (ext ext' : String → FetchOutcome)
    (bad : String → Bool) (isLeader : Bool) (s : Store) :
    (runReconciliation cfg ext bad isLeader s).1 = (runReconciliation cfg ext' bad isLeader s).1
    ∧ (runReconciliation cfg ext bad isLeader s).2.attempts
        = (runReconciliation cfg ext' bad isLeader s).2.attempts := by
  cases isLeader with
  | false => exact ⟨rfl, rfl⟩
  | true =>
    obtain ⟨e1, e2, e3⟩ :=
      reconcileMeetings_ext_irrel cfg ext ext' bad (getAllMeetingRoomIds s) s
    rw [runReconciliation, runReconciliation]
    simp only [Bool.true_eq_false, reduceIte]
    by_cases hab : (reconcileMeetings cfg ext bad (getAllMeetingRoomIds s) s).2.aborted = true
    · have hab' : (reconcileMeetings cfg ext' bad (getAllMeetingRoomIds s) s).2.aborted = true := by
        rw [← e3]
        exact hab
      simp only [hab, hab', reduceIte]
      exact ⟨e1, e2⟩
    · have habf : (reconcileMeetings cfg ext bad (getAllMeetingRoomIds s) s).2.aborted = false := by
        rcases Bool.eq_false_or_eq_true
          ((reconcileMeetings cfg ext bad (getAllMeetingRoomIds s) s).2.aborted) with h | h
        · exact absurd h hab
        · exact h
      have habf' : (reconcileMeetings cfg ext' bad (getAllMeetingRoomIds s) s).2.aborted = false := by
        rw [← e3]
        exact habf
      simp only [habf, habf', Bool.false_eq_true, reduceIte, cleanupAbandonedRooms]
      rw [← e1]
      obtain ⟨f1, f2, _⟩ := cleanupRooms_ext_irrel cfg ext ext' bad
        (getAllRoomIds (reconcileMeetings cfg ext bad (getAllMeetingRoomIds s) s).1)
        (reconcileMeetings cfg ext bad (getAllMeetingRoomIds s) s).1
      refine ⟨f1, ?_⟩
      simp only [SweepLog.append]
      rw [e2, f2]

/-! ## No network request is ever issued when RealtimeKit is unconfigured -/

theorem deleteCloudfareMeeting_off (cfg : Config) (ext : String → FetchOutcome)
    (mid : String) (hc : cfg.isRealtimeKitConfigured = false) :
    deleteCloudfareMeeting cfg ext mid = (false, []) := by
  rw [deleteCloudfareMeeting, hc]
  rfl

theorem reconcileMeetings_requests_off (cfg : Config) (ext : String → FetchOutcome)
    (bad : String → Bool) (ids : List String) (s : Store)
    (hc : cfg.isRealtimeKitConfigured = false) :
    (reconcileMeetings cfg ext bad ids s).2.requests = [] := by
  induction ids generalizing s with
  | nil => rfl
  | cons i rest ih =>
    by_cases hb : bad i = true
    · rw [reconcileMeetings_cons_bad cfg ext bad i rest s hb]
    · have hb' : bad i = false := by
        rcases Bool.eq_false_or_eq_true (bad i) with h | h
        · exact absurd h hb
        · exact h
      by_cases hq : meetingStale s i = true
      · cases hm : getMeetingId i s with
        | some mid =>
          rw [reconcileMeetings_cons_del cfg ext bad i rest s mid hb' hq hm]
          show (deleteCloudfareMeeting cfg ext mid).2
              ++ (reconcileMeetings cfg ext bad rest (deleteMeetingId i s)).2.requests = []
          rw [deleteCloudfareMeeting_off cfg ext mid hc, ih (deleteMeetingId i s)]
          rfl
        | none =>
          rw [reconcileMeetings_cons_nomeet cfg ext bad i rest s hb' hq hm]
          exact ih s
      · have hq' : meetingStale s i = false := by
          rcases Bool.eq_false_or_eq_true (meetingStale s i) with h | h
          · exact absurd h hq
          · exact h
        rw [reconcileMeetings_cons_fresh cfg ext bad i rest s hb' hq']
        exact ih s

theorem cleanupRooms_requests_off (cfg : Config) (ext : String → FetchOutcome)
    (bad : String → Bool) (ids : List String) (s : Store)
    (hc : cfg.isRealtimeKitConfigured = false) :
    (cleanupRooms cfg ext bad ids s).2.requests = [] := by
  induction ids generalizing s with
  | nil => rfl
  | cons i rest ih =>
    by_cases hb : bad i = true
    · rw [cleanupRooms_cons_bad cfg ext bad i rest s hb]
    · have hb' : bad i = false := by
        rcases Bool.eq_false_or_eq_true (bad i) with h | h
        · exact absurd h hb
        · exact h
      cases hroom : getRoomById i s with
      | none =>
        rw [cleanupRooms_cons_none cfg ext bad i rest s hb' hroom]
        exact ih s
      | some room =>
        by_cases hab : isAbandoned room = true
        · cases hm : getMeetingId i s with
          | some mid =>
            rw [cleanupRooms_cons_del_meet cfg ext bad i rest s room mid hb' hroom hab hm]
            show (SweepLog.append ⟨[mid], (deleteCloudfareMeeting cfg ext mid).2, false⟩ _).requests = []
            simp only [SweepLog.append]
            rw [deleteCloudfareMeeting_off cfg ext mid hc,
              ih (deleteRoom room (deleteMeetingId i s))]
            rfl
          | none =>
            rw [cleanupRooms_cons_del_nomeet cfg ext bad i rest s room hb' hroom hab hm]
            show (SweepLog.append SweepLog.empty _).requests = []
            simp only [SweepLog.append, SweepLog.empty]
            rw [ih (deleteRoom room s)]
            rfl
        · have hab' : isAbandoned room = false := by
            rcases Bool.eq_false_or_eq_true (isAbandoned room) with h | h
            · exact absurd h hab
            · exact h
          rw [cleanupRooms_cons_keep cfg ext bad i rest s room hb' hroom hab']
          exact ih s

theorem runReconciliation_requests_off (cfg : Config) (ext : String → FetchOutcome)
    (bad : String → Bool) (isLeader : Bool) (s : Store)
    (hc : cfg.isRealtimeKitConfigured = false) :
    (runReconciliation cfg ext bad isLeader s).2.requests = [] := by
  cases isLeader with
  | false => rfl
  | true =>
    rw [runReconciliation]
    simp only [Bool.true_eq_false, reduceIte]
    by_cases hab : (reconcileMeetings cfg ext bad (getAllMeetingRoomIds s) s).2.aborted = true
    · simp only [hab, reduceIte]
      exact reconcileMeetings_requests_off cfg ext bad _ s hc
    · have habf : (reconcileMeetings cfg ext bad (getAllMeetingRoomIds s) s).2.aborted = false := by
        rcases Bool.eq_false_or_eq_true
          ((reconcileMeetings cfg ext bad (getAllMeetingRoomIds s) s).2.aborted) with h | h
        · exact absurd h hab
        · exact h
      simp only [habf, Bool.false_eq_true, reduceIte, cleanupAbandonedRooms]
      show (SweepLog.append _ _).requests = []
      simp only [SweepLog.append]
      rw [reconcileMeetings_requests_off cfg ext bad _ s hc,
        cleanupRooms_requests_off cfg ext bad _ _ hc]
      rfl

/-! ## Mutual exclusion of the fleet without TTL expiry -/

theorem setProc_key (g : Fleet) (i : Nat) (p : Proc) : (setProc g i p).key = g.key := rfl

theorem setProc_procs_self (g : Fleet) (i : Nat) (p : Proc) :
    (setProc g i p).procs i = p := by
  simp [setProc]

theorem setProc_procs_ne (g : Fleet) (i : Nat) (p : Proc) {j : Nat} (h : j ≠ i) :
    (setProc g i p).procs j = g.procs j := by
  simp [setProc, h]

theorem leaderInv_init : LeaderInv initFleet := by
  constructor
  · intro i h
    simp [initFleet] at h
  · intro i h
    simp [initFleet] at h

theorem leaderInv_step {g g' : Fleet} (h : HStep false g g') (hinv : LeaderInv g) :
    LeaderInv g' := by
  obtain ⟨hA, hB⟩ := hinv
  cases h with
  | hbLeader i hp =>
    constructor
    · intro j hj
      by_cases hji : j = i
      · subst hji
        rw [setProc_key]
        exact hA j (by rw [hp])
      · rw [setProc_procs_ne g i _ hji] at hj
        exact hA j hj
    · intro j hj
      by_cases hji : j = i
      · subst hji
        rw [setProc_procs_self] at hj
        simp at hj
      · rw [setProc_procs_ne g i _ hji] at hj
        rw [setProc_procs_ne g i _ hji, setProc_key]
        exact hB j hj
  | hbFollower i hp =>
    constructor
    · intro j hj
      by_cases hji : j = i
      · subst hji
        rw [setProc_procs_self] at hj
        simp at hj
      · rw [setProc_procs_ne g i _ hji] at hj
        exact hA j hj
    · intro j hj
      by_cases hji : j = i
      · subst hji
        rw [setProc_procs_self] at hj
        simp at hj
      · rw [setProc_procs_ne g i _ hji] at hj
        rw [setProc_procs_ne g i _ hji, setProc_key]
        exact hB j hj
  | setnxOk i hp hk =>
    constructor
    · intro j hj
      by_cases hji : j = i
      · subst hji
        rfl
      · rw [setProc_procs_ne _ i _ hji] at hj
        have := hA j hj
        rw [hk] at this
        exact absurd this (by simp)
    · intro j hj
      by_cases hji : j = i
      · subst hji
        rw [setProc_procs_self] at hj
        simp at hj
      · rw [setProc_procs_ne _ i _ hji] at hj
        have := (hB j hj).1
        rw [hk] at this
        exact absurd this (by simp)
  | setnxFail i j0 hp hk =>
    constructor
    · intro j hj
      by_cases hji : j = i
      · subst hji
        rw [setProc_procs_self] at hj
        simp at hj
      · rw [setProc_procs_ne g i _ hji] at hj
        exact hA j hj
    · intro j hj
      by_cases hji : j = i
      · subst hji
        rw [setProc_procs_self] at hj
        simp at hj
      · rw [setProc_procs_ne g i _ hji] at hj
        rw [setProc_procs_ne g i _ hji, setProc_key]
        exact hB j hj
  | renewOk i hp hk =>
    constructor
    · intro j hj
      by_cases hji : j = i
      · subst hji
        rw [setProc_key]
        exact hk
      · rw [setProc_procs_ne g i _ hji] at hj
        exact hA j hj
    · intro j hj
      by_cases hji : j = i
      · subst hji
        rw [setProc_procs_self] at hj
        simp at hj
      · rw [setProc_procs_ne g i _ hji] at hj
        rw [setProc_procs_ne g i _ hji, setProc_key]
        exact hB j hj
  | renewFail i hp hk =>
    constructor
    · intro j hj
      by_cases hji : j = i
      · subst hji
        rw [setProc_procs_self] at hj
        simp at hj
      · rw [setProc_procs_ne g i _ hji] at hj
        exact hA j hj
    · intro j hj
      by_cases hji : j = i
      · subst hji
        rw [setProc_procs_self] at hj
        simp at hj
      · rw [setProc_procs_ne g i _ hji] at hj
        rw [setProc_procs_ne g i _ hji, setProc_key]
        exact hB j hj
  | expireOk i hp =>
    constructor
    · intro j hj
      by_cases hji : j = i
      · subst hji
        rw [setProc_key]
        exact hA j (by rw [hp])
      · rw [setProc_procs_ne g i _ hji] at hj
        exact hA j hj
    · intro j hj
      by_cases hji : j = i
      · subst hji
        rw [setProc_procs_self] at hj
        simp at hj
      · rw [setProc_procs_ne g i _ hji] at hj
        rw [setProc_procs_ne g i _ hji, setProc_key]
        exact hB j hj
  | sdOwn i hp hk =>
    constructor
    · intro j hj
      by_cases hji : j = i
      · subst hji
        rw [setProc_procs_self] at hj
        simp at hj
      · rw [setProc_procs_ne g i _ hji] at hj
        exact hA j hj
    · intro j hj
      by_cases hji : j = i
      · subst hji
        rw [setProc_procs_self, setProc_key]
        exact ⟨hk, rfl⟩
      · rw [setProc_procs_ne g i _ hji] at hj
        rw [setProc_procs_ne g i _ hji, setProc_key]
        exact hB j hj
  | sdOther i hp hk =>
    constructor
    · intro j hj
      by_cases hji : j = i
      · subst hji
        rw [setProc_procs_self] at hj
        simp at hj
      · rw [setProc_procs_ne g i _ hji] at hj
        exact hA j hj
    · intro j hj
      by_cases hji : j = i
      · subst hji
        rw [setProc_procs_self] at hj
        simp at hj
      · rw [setProc_procs_ne g i _ hji] at hj
        rw [setProc_procs_ne g i _ hji, setProc_key]
        exact hB j hj
  | delOk i hp =>
    have hkey : g.key = some i := (hB i (by rw [hp])).1
    constructor
    · intro j hj
      by_cases hji : j = i
      · subst hji
        rw [setProc_procs_self] at hj
        simp at hj
      · rw [setProc_procs_ne _ i _ hji] at hj
        have := hA j hj
        rw [hkey] at this
        exact absurd (Option.some.inj this).symm hji
    · intro j hj
      by_cases hji : j = i
      · subst hji
        rw [setProc_procs_self] at hj
        simp at hj
      · rw [setProc_procs_ne _ i _ hji] at hj
        have := (hB j hj).1
        rw [hkey] at this
        exact absurd (Option.some.inj this).symm hji
  | ttlExpire j0 hex hk =>
    exact absurd hex (by simp)

theorem leaderInv_reach {g : Fleet} (h : FleetReach false g) : LeaderInv g := by
  induction h with
  | refl => exact leaderInv_init
  | tail _ hbc ih => exact leaderInv_step hbc ih

theorem fleetReach_A2 (ex : Bool) : FleetReach ex fleetA2 :=
  Relation.ReflTransGen.tail
    (Relation.ReflTransGen.tail Relation.ReflTransGen.refl
      (HStep.hbFollower initFleet 0 rfl))
    (HStep.setnxOk fleetA1 0 rfl rfl)

theorem fleetReach_B5 : FleetReach true fleetB5 :=
  Relation.ReflTransGen.tail
    (Relation.ReflTransGen.tail
      (Relation.ReflTransGen.tail (fleetReach_A2 true)
        (HStep.ttlExpire fleetA2 0 rfl rfl))
      (HStep.hbFollower fleetB3 1 rfl))
    (HStep.setnxOk fleetB4 1 rfl rfl)

/-! ## The claims -/

/-- Claim C1, counterexample: it is not the case that in every reachable
state of a fleet running the heartbeat against the shared store at most one
process has its local `isLeader` flag set.  After a TTL expiry of the
leadership key (here between two heartbeats of process 0), a second process
acquires the lease while the first still has its flag set. -/
theorem two_leaders_reachable :
    ¬ ∀ g : Fleet, FleetReach true g → atMostOneLeader g := by
  intro h
  have h01 := h fleetB5 fleetReach_B5 0 1 rfl rfl
  exact absurd h01 (by decide)

/-- Claim C1, amended: in every execution in which the leadership key never
expires (every renewal happens within the TTL), at most one process of the
fleet has its local `isLeader` flag set at any instant. -/
theorem mutual_exclusion_no_expiry (g : Fleet) (h : FleetReach false g) (i j : Nat)
    (hi : (g.procs i).isLeader = true) (hj : (g.procs j).isLeader = true) : i = j := by
  obtain ⟨hA, _⟩ := leaderInv_reach h
  have h1 := hA i hi
  have h2 := hA j hj
  rw [h1] at h2
  exact Option.some.inj h2

/-- Witness for the amended claim C1 at a concrete reachable state. -/
theorem mutual_exclusion_no_expiry_witness : (0 : Nat) = 0 :=
  mutual_exclusion_no_expiry fleetA2 (fleetReach_A2 false) 0 0 rfl rfl

/-- Claim C2: for every meeting mapping whose room is absent or in `lobby`
state, one leader sweep attempts the external deletion of its meeting (for
every behaviour of the external API, including one where every request
fails) and deletes the local mapping. -/
theorem stale_meeting_swept (cfg : Config) (ext : String → FetchOutcome) (s : Store)
    (hwf : StoreWF s) (r m : String) (hm : getMeetingId r s = some m)
    (hq : getRoomById r s = none
        ∨ ∃ room, getRoomById r s = some room ∧ room.state = RoomState.lobby) :
    getMeetingId r (runReconciliation cfg ext noBad true s).1 = none
    ∧ m ∈ (runReconciliation cfg ext noBad true s).2.attempts := by
  have hq' : meetingStale s r = true := by
    rcases hq with h | ⟨room, h, hst⟩
    · rw [meetingStale_of_none h]
    · rw [meetingStale_of_some h, hst]
      rfl
  exact sweep_clears_stale_mapping cfg ext s hwf r m hm hq'

/-- Witness for claim C2: the stale mapping of `room1` is cleaned even when
every external DELETE throws. -/
theorem stale_meeting_swept_witness :
    getMeetingId "room1" (runReconciliation sampleCfg extAllThrew noBad true sampleStore).1 = none
    ∧ "meetA" ∈ (runReconciliation sampleCfg extAllThrew noBad true sampleStore).2.attempts :=
  stale_meeting_swept sampleCfg extAllThrew sampleStore (by decide) "room1" "meetA"
    (by decide) (Or.inl (by decide))

/-- Claim C3: a room whose designated host is not connected, or which has no
connected player, is deleted by one leader sweep together with its chat
history and its meeting mapping, and the external deletion of its meeting is
attempted. -/
theorem abandoned_room_swept (cfg : Config) (ext : String → FetchOutcome) (s : Store)
    (hwf : StoreWF s) (r : String) (room : RoomData)
    (hroom : getRoomById r s = some room) (hab : isAbandoned room = true) :
    getRoomById r (runReconciliation cfg ext noBad true s).1 = none
    ∧ lookupKV r (runReconciliation cfg ext noBad true s).1.chats = none
    ∧ getMeetingId r (runReconciliation cfg ext noBad true s).1 = none
    ∧ ∀ m, getMeetingId r s = some m →
        m ∈ (runReconciliation cfg ext noBad true s).2.attempts :=
  sweep_clears_abandoned_room cfg ext s hwf r room hroom hab

/-- Witness for claim C3 at the room whose host is disconnected while
another player is still connected. -/
theorem abandoned_room_swept_witness :
    getRoomById "room3" (runReconciliation sampleCfg extAllOk noBad true sampleStore).1 = none
    ∧ lookupKV "room3" (runReconciliation sampleCfg extAllOk noBad true sampleStore).1.chats = none
    ∧ getMeetingId "room3" (runReconciliation sampleCfg extAllOk noBad true sampleStore).1 = none
    ∧ "meetC" ∈ (runReconciliation sampleCfg extAllOk noBad true sampleStore).2.attempts := by
  have h := abandoned_room_swept sampleCfg extAllOk sampleStore (by decide) "room3" room3
    (by decide) (by decide)
  exact ⟨h.1, h.2.1, h.2.2.1, h.2.2.2 "meetC" (by decide)⟩

/-- Claim C4: the sweep is idempotent — a second leader sweep on the result
of a first one leaves the store unchanged and performs no deletion attempt
(and no mutation) at all. -/
theorem sweep_idempotent (cfg : Config) (ext : String → FetchOutcome) (s : Store)
    (hwf : StoreWF s) :
    runReconciliation cfg ext noBad true (runReconciliation cfg ext noBad true s).1
      = ((runReconciliation cfg ext noBad true s).1, SweepLog.empty) :=
  sweep_idempotent_aux cfg ext s hwf

/-- Witness for claim C4 at a concrete store. -/
theorem sweep_idempotent_witness :
    runReconciliation sampleCfg extAllOk noBad true
        (runReconciliation sampleCfg extAllOk noBad true sampleStore).1
      = ((runReconciliation sampleCfg extAllOk noBad true sampleStore).1, SweepLog.empty) :=
  sweep_idempotent sampleCfg extAllOk sampleStore (by decide)

/-- Claim C5, counterexample: a store error on one item does not leave the
sweep processing the remaining items.  With two stale mappings and a store
error on reading `room1`, the sweep aborts: `room2`'s stale mapping survives
and no deletion is attempted for it. -/
theorem store_error_aborts_sweep :
    getMeetingId "room2" (runReconciliation sampleCfg extAllOk badRoom1 true c5Store).1
        = some "meetB"
    ∧ getRoomById "room2" c5Store = none
    ∧ (runReconciliation sampleCfg extAllOk badRoom1 true c5Store).2.attempts = [] := by
  decide

/-- Claim C5, amended: an external-resource deletion failure is caught
inside `deleteCloudfareMeeting` and never influences which items the sweep
processes (the resulting store and attempted deletions are identical for
every external behaviour); a store error, however, is caught only by the
sweep-level handler: it stops the remaining items of the current loop,
returning the partially cleaned store with an abort mark instead of
rethrowing. -/
theorem sweep_error_handling_amended (cfg : Config) (ext ext' : String → FetchOutcome)
    (bad : String → Bool) (isLeader : Bool) (s : Store) (r : String) (rest : List String)
    (hr : bad r = true) :
    ((runReconciliation cfg ext bad isLeader s).1 = (runReconciliation cfg ext' bad isLeader s).1
      ∧ (runReconciliation cfg ext bad isLeader s).2.attempts
          = (runReconciliation cfg ext' bad isLeader s).2.attempts)
    ∧ reconcileMeetings cfg ext bad (r :: rest) s = (s, ⟨[], [], true⟩)
    ∧ cleanupRooms cfg ext bad (r :: rest) s = (s, ⟨[], [], true⟩) :=
  ⟨runReconciliation_ext_irrel cfg ext ext' bad isLeader s,
    reconcileMeetings_cons_bad cfg ext bad r rest s hr,
    cleanupRooms_cons_bad cfg ext bad r rest s hr⟩

/-- Witness for the amended claim C5 at a concrete store and fault. -/
theorem sweep_error_handling_amended_witness :
    ((runReconciliation sampleCfg extAllOk badRoom1 true c5Store).1
        = (runReconciliation sampleCfg extAllThrew badRoom1 true c5Store).1
      ∧ (runReconciliation sampleCfg extAllOk badRoom1 true c5Store).2.attempts
          = (runReconciliation sampleCfg extAllThrew badRoom1 true c5Store).2.attempts)
    ∧ reconcileMeetings sampleCfg extAllOk badRoom1 ["room1"] c5Store
        = (c5Store, ⟨[], [], true⟩)
    ∧ cleanupRooms sampleCfg extAllOk badRoom1 ["room1"] c5Store
        = (c5Store, ⟨[], [], true⟩) :=
  sweep_error_handling_amended sampleCfg extAllOk extAllThrew badRoom1 true c5Store
    "room1" [] (by decide)

/-- Claim C6, counterexample: a store failure during `renewLeadership` is
not absorbed by the heartbeat — the rejection escapes the heartbeat task
(`threw = true`) and the process still has `isLeader = true` rather than
assuming it is not leader. -/
theorem heartbeat_store_error_escapes :
    (leadershipHeartbeatE true "A" ⟨true, true⟩ ⟨some ("A", 3)⟩).threw = true
    ∧ (leadershipHeartbeatE true "A" ⟨true, true⟩ ⟨some ("A", 3)⟩).loc.isLeader = true := by
  decide

/-- Claim C6, amended: a store failure inside `tryAcquireLeadership` or
`renewLeadership` propagates out of `leadershipHeartbeat` (there is no
try/catch on this path) and leaves both the local state and the store
unchanged; when the store does not fail, no exception escapes the
heartbeat. -/
theorem heartbeat_store_error_amended (sid : String) (l : Local) (s : LeaseStore) :
    leadershipHeartbeatE true sid l s = ⟨l, s, true⟩
    ∧ (leadershipHeartbeatE false sid l s).threw = false := by
  constructor
  · obtain ⟨lb, lr⟩ := l
    cases lb <;> rfl
  · obtain ⟨lb, lr⟩ := l
    cases lb with
    | false =>
      rw [leadershipHeartbeatE]
      simp only [Bool.false_eq_true, reduceIte]
      rw [tryAcquireLeadershipE]
      simp only [Bool.false_eq_true, reduceIte]
      cases hb : (tryAcquireLeadership sid s).1 <;> rfl
    | true =>
      rw [leadershipHeartbeatE]
      simp only [reduceIte]
      rw [renewLeadershipE]
      simp only [Bool.false_eq_true, reduceIte]
      cases hb : (renewLeadership sid s).1 with
      | true => rfl
      | false => rfl

/-- Claim C7: `renewLeadership` reads the current holder; when it is not this
process it fails without writing, otherwise it succeeds and resets the key's
expiry to the full lease TTL of 3 seconds. -/
theorem renewLeadership_spec (sid : String) (s : LeaseStore) :
    LEADER_TTL_SECONDS = 3
    ∧ (leaseHolder s ≠ some sid → renewLeadership sid s = (false, s))
    ∧ (leaseHolder s = some sid →
        (renewLeadership sid s).1 = true
        ∧ (renewLeadership sid s).2.leader = some (sid, LEADER_TTL_SECONDS)) := by
  refine ⟨rfl, ?_, ?_⟩
  · intro h
    rw [renewLeadership, if_neg h]
  · intro h
    rw [renewLeadership, if_pos h]
    exact ⟨rfl, rfl⟩

/-- Witness for claim C7: renewal by a non-holder fails without a write,
renewal by the holder resets the TTL. -/
theorem renewLeadership_spec_witness :
    renewLeadership "A" ⟨some ("B", 2)⟩ = (false, ⟨some ("B", 2)⟩)
    ∧ (renewLeadership "A" ⟨some ("A", 1)⟩).1 = true
    ∧ (renewLeadership "A" ⟨some ("A", 1)⟩).2.leader = some ("A", LEADER_TTL_SECONDS) :=
  ⟨(renewLeadership_spec "A" ⟨some ("B", 2)⟩).2.1 (by decide),
    ((renewLeadership_spec "A" ⟨some ("A", 1)⟩).2.2 (by decide)).1,
    ((renewLeadership_spec "A" ⟨some ("A", 1)⟩).2.2 (by decide)).2⟩

/-- Claim C8: `stepDown` is idempotent, does nothing for a non-leader, and
for a leader clears the flag, stops the reconciliation schedule, and deletes
the shared record only when it still names this process — a successor's
lease is never deleted. -/
theorem stepDown_spec (sid : String) (x : Local × LeaseStore) :
    stepDown sid (stepDown sid x) = stepDown sid x
    ∧ (x.1.isLeader = false → stepDown sid x = x)
    ∧ (x.1.isLeader = true →
        (stepDown sid x).1.isLeader = false
        ∧ (stepDown sid x).1.reconciliationActive = false
        ∧ (leaseHolder x.2 = some sid → (stepDown sid x).2.leader = none)
        ∧ (leaseHolder x.2 ≠ some sid → (stepDown sid x).2 = x.2)) := by
  by_cases hl : x.1.isLeader = false
  · have hsd : stepDown sid x = x := by rw [stepDown, if_pos hl]
    refine ⟨?_, fun _ => hsd, ?_⟩
    · rw [hsd, hsd]
    · intro h
      rw [h] at hl
      exact absurd hl (by simp)
  · have hsd : stepDown sid x
        = (⟨false, false⟩, if leaseHolder x.2 = some sid then ⟨none⟩ else x.2) := by
      rw [stepDown, if_neg hl]
    refine ⟨?_, fun h => absurd h hl, ?_⟩
    · rw [hsd, stepDown, if_pos rfl]
    · intro _
      rw [hsd]
      exact ⟨rfl, rfl, fun h => by rw [if_pos h], fun h => by rw [if_neg h]⟩

/-- Witness for claim C8: a leader holding its own lease deletes it; a
leader whose lease was taken over leaves the successor's record; a
non-leader is unchanged. -/
theorem stepDown_spec_witness :
    (stepDown "A" (⟨true, true⟩, ⟨some ("A", 3)⟩)).2.leader = none
    ∧ (stepDown "A" (⟨true, true⟩, ⟨some ("B", 3)⟩)).2 = (⟨some ("B", 3)⟩ : LeaseStore)
    ∧ stepDown "A" (⟨false, false⟩, ⟨some ("B", 3)⟩) = (⟨false, false⟩, ⟨some ("B", 3)⟩) :=
  ⟨((stepDown_spec "A" (⟨true, true⟩, ⟨some ("A", 3)⟩)).2.2 rfl).2.2.1 (by decide),
    ((stepDown_spec "A" (⟨true, true⟩, ⟨some ("B", 3)⟩)).2.2 rfl).2.2.2 (by decide),
    (stepDown_spec "A" (⟨false, false⟩, ⟨some ("B", 3)⟩)).2.1 rfl⟩

/-- Claim C9: the meeting mapping is created at most once per room by the
atomic set-if-absent: when a mapping exists the save returns `false` and
leaves the store untouched, and of two linearized saves for the same room
only the first records its meeting — the second fails, finds the first one
recorded, and `joinCall` adopts it. -/
theorem saveMeetingId_at_most_once (s : Store) (r m1 m2 : String) :
    (∀ m, getMeetingId r s = some m → saveMeetingIdIfNotExists r m1 s = (false, s))
    ∧ (getMeetingId r s = none →
        (saveMeetingIdIfNotExists r m1 s).1 = true
        ∧ saveMeetingIdIfNotExists r m2 (saveMeetingIdIfNotExists r m1 s).2
            = (false, (saveMeetingIdIfNotExists r m1 s).2)
        ∧ getMeetingId r (saveMeetingIdIfNotExists r m1 s).2 = some m1
        ∧ joinCallMeeting r m2 (saveMeetingIdIfNotExists r m1 s).2
            = some (m1, (saveMeetingIdIfNotExists r m1 s).2)) := by
  constructor
  · intro m hm
    rw [saveMeetingIdIfNotExists, show lookupKV r s.meetings = some m from hm]
  · intro hm
    have hm' : lookupKV r s.meetings = none := hm
    have hsave : saveMeetingIdIfNotExists r m1 s
        = (true, { s with meetings := (r, m1) :: s.meetings }) := by
      rw [saveMeetingIdIfNotExists, hm']
    rw [hsave]
    have hget : getMeetingId r { s with meetings := (r, m1) :: s.meetings } = some m1 := by
      show lookupKV r ((r, m1) :: s.meetings) = some m1
      rw [lookupKV, if_pos rfl]
    refine ⟨rfl, ?_, hget, ?_⟩
    · rw [saveMeetingIdIfNotExists,
        show lookupKV r ({ s with meetings := (r, m1) :: s.meetings } : Store).meetings
          = some m1 from hget]
    · rw [joinCallMeeting, hget]

/-- Witness for claim C9: a second save against an existing mapping is a
no-op returning `false`, and a save into an empty store records its id. -/
theorem saveMeetingId_at_most_once_witness :
    saveMeetingIdIfNotExists "room1" "meetNew" sampleStore = (false, sampleStore)
    ∧ getMeetingId "room9" (saveMeetingIdIfNotExists "room9" "m1" emptyStore).2 = some "m1" :=
  ⟨(saveMeetingId_at_most_once sampleStore "room1" "meetNew" "m2").1 "meetA" (by decide),
    ((saveMeetingId_at_most_once emptyStore "room9" "m1" "m2").2 (by decide)).2.2.1⟩

/-- Claim C10: when RealtimeKit is not configured, `deleteCloudfareMeeting`
returns `false` without any network request, the whole sweep issues no
network request, and the local cleanup (stale meeting mapping, abandoned
room) still completes. -/
theorem unconfigured_cleanup_local_only (cfg : Config) (ext : String → FetchOutcome)
    (s : Store) (hc : cfg.isRealtimeKitConfigured = false) (hwf : StoreWF s)
    (r m : String) (hm : getMeetingId r s = some m) (hq : meetingStale s r = true)
    (r2 : String) (room : RoomData) (hroom : getRoomById r2 s = some room)
    (hab : isAbandoned room = true) :
    (∀ mid, deleteCloudfareMeeting cfg ext mid = (false, []))
    ∧ (runReconciliation cfg ext noBad true s).2.requests = []
    ∧ getMeetingId r (runReconciliation cfg ext noBad true s).1 = none
    ∧ getRoomById r2 (runReconciliation cfg ext noBad true s).1 = none :=
  ⟨fun mid => deleteCloudfareMeeting_off cfg ext mid hc,
    runReconciliation_requests_off cfg ext noBad true s hc,
    (sweep_clears_stale_mapping cfg ext s hwf r m hm hq).1,
    (sweep_clears_abandoned_room cfg ext s hwf r2 room hroom hab).1⟩

/-- Witness for claim C10 at a concrete unconfigured deployment. -/
theorem unconfigured_cleanup_local_only_witness :
    deleteCloudfareMeeting sampleCfgOff extAllOk "meetC" = (false, [])
    ∧ (runReconciliation sampleCfgOff extAllOk noBad true sampleStore).2.requests = []
    ∧ getMeetingId "room1" (runReconciliation sampleCfgOff extAllOk noBad true sampleStore).1
        = none
    ∧ getRoomById "room3" (runReconciliation sampleCfgOff extAllOk noBad true sampleStore).1
        = none := by
  have h := unconfigured_cleanup_local_only sampleCfgOff extAllOk sampleStore (by decide)
    (by decide) "room1" "meetA" (by decide) (by decide) "room3" room3 (by decide) (by decide)
  exact ⟨h.1 "meetC", h.2.1, h.2.2.1, h.2.2.2⟩

end Imposter
